import Mathlib

/-!
Verification of the VaultBot playback-tracking core, shallowly embedded from

* `core/bot/cogs/vaultpulse/buffer.py`            (tick buffer),
* `core/bot/cogs/makemeworseplus/session_incrementor.py` (increment processor),
* `core/bot/cogs/makemeworseplus/playlist_tracking_db_helpers.py` (store lookups),
* `core/bot/cogs/makemeworseplus/session_abandon.py`  (abandonment tracker),
* `core/bot/cogs/makemeworseplus/playlist_tracking.py` (orchestrator).

Embedding conventions: Python ints are `Int` (or `Nat` where the source
value is an index or a count), float seconds are `Rat`, dictionaries are
functions with `Option` results (or association lists where the key set is
iterated), the wall clock and the hour bucket of each call are explicit
parameters, database reads are drawn from a read-only environment, and
database writes together with dispatched domain events are returned as an
explicit action list.
-/

namespace VaultBot

/-- Pointwise update of a function-modelled dictionary
(`d[k] = v` / `d.pop(k)` with `none`). -/
def updFn {α β : Type} [DecidableEq α] (f : α → β) (a : α) (b : β) : α → β :=
  fun x => if x = a then b else f x

@[simp] theorem updFn_same {α β : Type} [DecidableEq α] (f : α → β) (a : α) (b : β) :
    updFn f a b a = b := by simp [updFn]

@[simp] theorem updFn_other {α β : Type} [DecidableEq α] (f : α → β) (a : α) (b : β)
    {x : α} (h : x ≠ a) : updFn f a b x = f x := by simp [updFn, h]

/-! ## Tick buffer (`core/bot/cogs/vaultpulse/buffer.py`) -/

namespace Buffer

/-- Module constants of `buffer.py`. -/
def TICKS_PER_SECOND : ℤ := 10000000

def MAX_JUMP_BACK : ℤ := 5 * 10000000

def INIT_BUFFER : ℤ := 15 * 10000000

/-- Default `max_allowed` of `_safe_delta` (60 seconds of ticks). -/
def MAX_ALLOWED_DELTA : ℤ := 60 * 10000000

/-- `MAX_TICK_AGE` (12 hours) in seconds. -/
def MAX_TICK_AGE_SECONDS : ℚ := 12 * 3600

/-- Python `//` on ints (floor division). -/
def pydiv (a b : ℤ) : ℤ := Int.fdiv a b

/-- Key of `_buffer` / `_tick_tracker` / `_consumed_ticks`:
`(user_id, item_id, hour_bucket)`; the hour bucket is abstracted to `ℕ`. -/
abbrev BufKey := String × String × ℕ

/-- Key of `_last_known_tick`: `(user_id, item_id)`. -/
abbrev UserItemKey := String × String

/-- `LastTick` dataclass. -/
structure LastTick where
  ticks : ℤ
  timestamp : ℚ
deriving DecidableEq

/-- The mutable state of `BufferManager`.  `_buffer` is a `defaultdict(int)`
and is modelled as a total function defaulting to `0`; the plain dicts are
`Option`-valued functions.  A key absent from the Python `_buffer` always
maps to `0` here, so `consume_recent_deltas` treats it exactly like an
untouched key. -/
structure BufferState where
  buffer : BufKey → ℤ
  tick_tracker : BufKey → Option ℤ
  last_known_tick : UserItemKey → Option LastTick
  current_track : String → Option String
  consumed_ticks : BufKey → Option ℤ

/-- `BufferManager.__init__`: all maps empty. -/
def BufferState.init : BufferState :=
  { buffer := fun _ => 0
    tick_tracker := fun _ => none
    last_known_tick := fun _ => none
    current_track := fun _ => none
    consumed_ticks := fun _ => none }

/-- `_detect_restart`: a jump back of more than `MAX_JUMP_BACK` resets the
reference position to `0`, otherwise the last known position is kept. -/
def detect_restart (current_ticks last_ticks : ℤ) : ℤ :=
  if current_ticks < last_ticks - MAX_JUMP_BACK then 0 else last_ticks

/-- `_safe_delta`: the delta is credited only inside the band
`[0, max_allowed]`; outside the band it is discarded (`0`). -/
def safe_delta (current previous max_allowed : ℤ) : ℤ :=
  let delta := current - previous
  if 0 ≤ delta ∧ delta ≤ max_allowed then delta else 0

/-- `_handle_initial`: record the first observation for a `(user, item)`
pair; only initial positions `≤ INIT_BUFFER` are credited to the buffer. -/
def handle_initial (s : BufferState) (user_item_key : UserItemKey)
    (track_key : BufKey) (ticks : ℤ) (now_ts : ℚ) : BufferState :=
  let s := { s with
    last_known_tick := updFn s.last_known_tick user_item_key (some ⟨ticks, now_ts⟩) }
  if ticks ≤ INIT_BUFFER then
    { s with
      tick_tracker := updFn s.tick_tracker track_key (some ticks)
      buffer := updFn s.buffer track_key (s.buffer track_key + ticks) }
  else s

/-- `_handle_subsequent`: detect restarts, compute the safe delta and
update the trackers; a non-positive delta leaves everything unchanged.
(The source indexes `_last_known_tick` directly; it is only called when
the key is present, so the `none` arm is unreachable.) -/
def handle_subsequent (s : BufferState) (user_item_key : UserItemKey)
    (track_key : BufKey) (ticks : ℤ) (now_ts : ℚ) : BufferState :=
  match s.last_known_tick user_item_key with
  | none => s
  | some last =>
    let last_ticks := detect_restart ticks last.ticks
    let delta := safe_delta ticks last_ticks MAX_ALLOWED_DELTA
    if delta ≤ 0 then s
    else
      { s with
        last_known_tick := updFn s.last_known_tick user_item_key (some ⟨ticks, now_ts⟩)
        tick_tracker := updFn s.tick_tracker track_key (some ticks)
        buffer := updFn s.buffer track_key (s.buffer track_key + delta) }

/-- `_get_track_runtime_ticks` is a database read; the environment of the
buffer is the runtime (in ticks) of each item. -/
structure RuntimeEnv where
  runtime_ticks : String → ℤ

/-- `_finalize_track_on_change`: credit the (capped) gap between the last
known position on the old item and that item's runtime. -/
def finalize_track_on_change (env : RuntimeEnv) (s : BufferState)
    (user_id old_item_id : String) (hour_key : ℕ) : BufferState :=
  match s.last_known_tick (user_id, old_item_id) with
  | none => s
  | some last =>
    let track_runtime_ticks := env.runtime_ticks old_item_id
    let track_key : BufKey := (user_id, old_item_id, hour_key)
    let gap_ticks := max 0 (track_runtime_ticks - last.ticks)
    let gap_ticks := min gap_ticks (30 * TICKS_PER_SECOND)
    if 0 < gap_ticks then
      { s with buffer := updFn s.buffer track_key (s.buffer track_key + gap_ticks) }
    else s

/-- `update`: one snapshot `{user_id, item_id, position ticks}`.  The empty
string stands for the falsy `None`/`""` ids that make the source return
early.  The current hour bucket and wall-clock timestamp are parameters. -/
def update (env : RuntimeEnv) (s : BufferState) (user_id item_id : String)
    (ticks : ℤ) (now_ts : ℚ) (hour_key : ℕ) : BufferState :=
  if user_id = "" ∨ item_id = "" then s
  else
    let s :=
      match s.current_track user_id with
      | some old_item_id =>
        if old_item_id ≠ "" ∧ old_item_id ≠ item_id then
          finalize_track_on_change env s user_id old_item_id hour_key
        else s
      | none => s
    let s := { s with current_track := updFn s.current_track user_id (some item_id) }
    let track_key : BufKey := (user_id, item_id, hour_key)
    let user_item_key : UserItemKey := (user_id, item_id)
    match s.last_known_tick user_item_key with
    | none => handle_initial s user_item_key track_key ticks now_ts
    | some _ => handle_subsequent s user_item_key track_key ticks now_ts

/-- The loop body of `consume_recent_deltas` for one buffer key: the new
seconds surfaced for that key on this call (`0` when the key yields no
entry of the returned delta list). -/
def consumeKeyResult (s : BufferState) (k : BufKey) : ℤ :=
  if s.current_track k.1 = some k.2.1 then
    let total_ticks := s.buffer k
    let consumed := (s.consumed_ticks k).getD 0
    let new_ticks := total_ticks - consumed
    if 0 < new_ticks then
      let new_seconds := pydiv new_ticks TICKS_PER_SECOND
      if 0 < new_seconds then new_seconds else 0
    else 0
  else 0

/-- `consume_recent_deltas`: returns the new whole seconds per key (the
Python delta list, represented as its per-key totals) and advances the
consumed watermark to the full buffered total exactly for the keys that
yielded a positive number of seconds. -/
def consume_recent_deltas (s : BufferState) : (BufKey → ℤ) × BufferState :=
  (fun k => consumeKeyResult s k,
   { s with
     consumed_ticks := fun k =>
       if 0 < consumeKeyResult s k then some (s.buffer k) else s.consumed_ticks k })

/-- `clear`: drop the buffer, tick tracker, current-track map and consumed
watermarks, and prune `_last_known_tick` entries older than 12 hours. -/
def clear (s : BufferState) (now_ts : ℚ) : BufferState :=
  { buffer := fun _ => 0
    tick_tracker := fun _ => none
    current_track := fun _ => none
    consumed_ticks := fun _ => none
    last_known_tick := fun k =>
      match s.last_known_tick k with
      | some last => if now_ts - last.timestamp < MAX_TICK_AGE_SECONDS then some last else none
      | none => none }

end Buffer

/-! ## Increment processor (`session_incrementor.py`, db helpers) -/

namespace Incr

/-- Heuristic thresholds of `session_incrementor.py`. -/
def TICKS_PER_SECOND : ℤ := 10000000

def ORDER_ADVANCE_MIN_SECS : ℚ := 10

def ORDER_ADVANCE_PERCENTAGE : ℚ := 67 / 100

def COMPLETION_PERCENTAGE : ℚ := 90 / 100

def MAX_EVENT_DELAY_SECONDS : ℚ := 300

def SEED_TIME_GUARD_SECONDS : ℚ := 30

/-- `SessionState` dataclass (`session_state.py`); `track_started_at` is a
wall-clock instant in seconds. -/
structure SessionState where
  session_id : Option ℕ
  user_playlist_id : ℕ
  jf_playlist_id : Option String
  current_index : ℕ
  is_confirmed : Bool
  current_item_id : String
  seconds_accum : ℚ
  playlist_length : Option ℕ
  playlist_total_runtime : ℚ
  second_expected : Option String
  jellyfin_user_id : String
  track_started_at : Option ℚ
deriving DecidableEq

/-- Read-only view of the persistent store used by the increment processor
(`playlist_tracking_db_helpers.py` plus the two inline queries).
`playlists` lists the current user's non-expired playlists, most recently
generated first, each with its ordered track-id list; `upsert_sid` is the
session id handed back by `upsert_playlist_session`. -/
structure VaultDB where
  playlists : List (ℕ × List String)
  runtime : String → ℚ
  jf_playlist : ℕ → Option String
  upsert_sid : ℕ
  total_runtime : ℕ → ℚ

/-- The ordered track list of one playlist (empty when the id is unknown). -/
def tracksOf (db : VaultDB) (user_playlist_id : ℕ) : List String :=
  ((db.playlists.find? (fun p => p.1 = user_playlist_id)).map Prod.snd).getD []

/-- `get_playlist_track_at_index`. -/
def get_playlist_track_at_index (db : VaultDB) (user_playlist_id idx : ℕ) : Option String :=
  (tracksOf db user_playlist_id).get? idx

/-- `get_order_index_for_item` (first matching row). -/
def get_order_index_for_item (db : VaultDB) (user_playlist_id : ℕ) (item_id : String) : Option ℕ :=
  (tracksOf db user_playlist_id).indexOf? item_id

/-- `get_playlist_length`. -/
def get_playlist_length (db : VaultDB) (user_playlist_id : ℕ) : ℕ :=
  (tracksOf db user_playlist_id).length

/-- `get_track_runtime` (seconds). -/
def get_track_runtime (db : VaultDB) (item_id : String) : ℚ :=
  db.runtime item_id

/-- `_get_all_playlist_items` (the set of item ids of a playlist). -/
def all_playlist_items (db : VaultDB) (user_playlist_id : ℕ) : List String :=
  tracksOf db user_playlist_id

/-- One row of `find_candidate_playlists_by_first_item`'s result. -/
structure Candidate where
  user_playlist_id : ℕ
  first : Option String
  second : Option String
deriving DecidableEq

/-- `find_candidate_playlists_by_first_item`: the user's non-expired
playlists whose track at order index 0 is the observed item, carrying the
items at order indices 0 and 1.  (`discord_id` scoping is part of the
`VaultDB` view.) -/
def find_candidate_playlists_by_first_item (db : VaultDB) (discord_id first_item_id : String) :
    List Candidate :=
  let _ := discord_id
  (db.playlists.filter (fun p => p.2.get? 0 = some first_item_id)).map
    (fun p => ⟨p.1, p.2.get? 0, p.2.get? 1⟩)

/-- Database writes and dispatched domain events of one processing step. -/
inductive Action where
  | upsertSession (discord_id : String) (user_playlist_id current_index : ℕ) (is_confirmed : Bool)
  | recordFileCompletion (session_id : ℕ) (item_id : String) (order_index : ℕ) (listen_duration : ℚ)
  | markSessionComplete (session_id : ℕ)
  | emitStart (discord_id item_id : String)
  | emitTrackAdvance (discord_id : String) (from_index : ℕ) (from_item : String)
      (seconds_on_from : ℚ) (to_item : String)
  | emitTrackJump (discord_id : String) (from_index : ℕ) (from_item : String)
      (seconds_on_from : ℚ) (to_item : String)
  | emitSwitchAway (discord_id new_item_id : String)
  | emitPlaylistComplete (discord_id : String) (delayed : Bool) (delay_seconds : ℚ)
  | emitSessionAbandoned (discord_id : String) (from_snapshot : Bool)
deriving DecidableEq

/-- The event kind dispatched by `emit_track_advance`
(`"playlist_track_advance"`). -/
def Action.isTrackAdvance : Action → Bool
  | .emitTrackAdvance .. => true
  | _ => false

/-- The event kind dispatched by `emit_track_jump` (`"playlist_track_jump"`). -/
def Action.isTrackJump : Action → Bool
  | .emitTrackJump .. => true
  | _ => false

/-- The event dispatched for a finished playlist (`"playlist_complete"`),
immediate or deferred. -/
def Action.isPlaylistComplete : Action → Bool
  | .emitPlaylistComplete .. => true
  | _ => false

def Action.isUpsertSession : Action → Bool
  | .upsertSession .. => true
  | _ => false

/-- `_calculate_completion_threshold` (default percentage). -/
def calculate_completion_threshold (db : VaultDB) (item_id : String) : ℚ :=
  get_track_runtime db item_id * COMPLETION_PERCENTAGE

/-- `_calculate_advance_threshold`: 2/3 of the track with a 10 second floor. -/
def calculate_advance_threshold (db : VaultDB) (item_id : String) : ℚ :=
  let track_runtime := get_track_runtime db item_id
  let percentage_threshold := track_runtime * ORDER_ADVANCE_PERCENTAGE
  max ORDER_ADVANCE_MIN_SECS percentage_threshold

/-- `if not state.playlist_length:` — fetch the length when it is `None`
or the falsy `0`. -/
def ensure_playlist_length (db : VaultDB) (st : SessionState) : SessionState :=
  match st.playlist_length with
  | some n => if n = 0 then { st with playlist_length := some (get_playlist_length db st.user_playlist_id) } else st
  | none => { st with playlist_length := some (get_playlist_length db st.user_playlist_id) }

/-- `_finalize_if_complete`: on the last track of a confirmed session with a
(truthy) session id, record the full track runtime, mark the session
complete and emit the completion event — deferred by the remaining
real-time gap (capped at `MAX_EVENT_DELAY_SECONDS`) when extra time is
being credited. -/
def finalize_if_complete (db : VaultDB) (discord_id : String) (st : SessionState)
    (total_tracks : ℕ) : Bool × List Action :=
  if st.is_confirmed = false then (false, [])
  else
    let completion_threshold := calculate_completion_threshold db st.current_item_id
    if (total_tracks : ℤ) - 1 ≤ (st.current_index : ℤ) ∧ completion_threshold ≤ st.seconds_accum then
      match st.session_id with
      | some sid =>
        if sid = 0 then (false, [])
        else
          let track_runtime := get_track_runtime db st.current_item_id
          let time_to_record := track_runtime
          let delay_seconds :=
            if completion_threshold ≤ st.seconds_accum then
              min (max 0 (track_runtime - st.seconds_accum)) MAX_EVENT_DELAY_SECONDS
            else 0
          let should_delay := decide (completion_threshold ≤ st.seconds_accum)
          let completion_acts :=
            if should_delay = true ∧ 0 < delay_seconds then
              [Action.emitPlaylistComplete discord_id true delay_seconds]
            else
              [Action.emitPlaylistComplete discord_id false 0]
          (true,
           [Action.recordFileCompletion sid st.current_item_id st.current_index time_to_record,
            Action.markSessionComplete sid] ++ completion_acts)
      | none => (false, [])
    else (false, [])

/-- `_handle_same_item_increment`: accumulate time; on the final track of a
confirmed session, reaching the completion threshold finalizes the playlist
and destroys the state. -/
def handle_same_item_increment (db : VaultDB) (discord_id : String) (st : SessionState)
    (secs : ℕ) : Option SessionState × List Action :=
  let st := { st with seconds_accum := st.seconds_accum + secs }
  let st := ensure_playlist_length db st
  match st.playlist_length with
  | some n =>
    if st.is_confirmed = true ∧ n ≠ 0 ∧ n - 1 ≤ st.current_index then
      let completion_threshold := calculate_completion_threshold db st.current_item_id
      if completion_threshold ≤ st.seconds_accum then
        let r := finalize_if_complete db discord_id st n
        (none, r.2)
      else (some st, [])
    else (some st, [])
  | none => (some st, [])

/-- `_process_track_completion`: confirm a first-track session, upsert the
row, record time on the previous track (full runtime on completion, the
larger of accumulated and wall-clock time on a skip), move the pointer and
emit an advance or jump event. -/
def process_track_completion (db : VaultDB) (discord_id : String) (st : SessionState)
    (next_idx : ℕ) (item_id : String) (is_completion : Bool) (now : ℚ) :
    SessionState × List Action :=
  let was_unconfirmed_first := st.current_index = 0 ∧ st.is_confirmed = false
  let st := { st with is_confirmed := st.is_confirmed || decide was_unconfirmed_first }
  let st := ensure_playlist_length db st
  let sid := db.upsert_sid
  let st := { st with session_id := some sid }
  let upsert1 := Action.upsertSession discord_id st.user_playlist_id st.current_index st.is_confirmed
  let time_to_record : ℚ :=
    if is_completion then get_track_runtime db st.current_item_id
    else
      let t :=
        match st.track_started_at with
        | some started => max st.seconds_accum (now - started)
        | none => st.seconds_accum
      max 0 t
  let record_acts :=
    if 0 < time_to_record then
      [Action.recordFileCompletion sid st.current_item_id st.current_index time_to_record]
    else []
  let prev_time := time_to_record
  let prev_item := st.current_item_id
  let prev_index := st.current_index
  let st := { st with
    current_index := next_idx
    current_item_id := item_id
    seconds_accum := 0
    track_started_at := some now }
  let upsert2 := Action.upsertSession discord_id st.user_playlist_id st.current_index st.is_confirmed
  let ev :=
    if is_completion then Action.emitTrackAdvance discord_id prev_index prev_item prev_time item_id
    else Action.emitTrackJump discord_id prev_index prev_item prev_time item_id
  (st, [upsert1] ++ record_acts ++ [upsert2, ev])

/-- `_handle_sequential_advance`: advance threshold check on accumulated
seconds, with the wall-clock defensive override; always moves the pointer
via `_process_track_completion`. -/
def handle_sequential_advance (db : VaultDB) (discord_id item_id : String) (now : ℚ)
    (st : SessionState) (next_idx : ℕ) : Option SessionState × List Action :=
  let advance_threshold := calculate_advance_threshold db st.current_item_id
  let is_completion :=
    if advance_threshold ≤ st.seconds_accum then true
    else
      let time_spent :=
        match st.track_started_at with
        | some started => now - started
        | none => 0
      decide (advance_threshold ≤ time_spent)
  let r := process_track_completion db discord_id st next_idx item_id is_completion now
  (some r.1, r.2)

/-- `_process_playlist_jump`: jump within the playlist; the new track starts
with the (guarded) credited time.  The source dispatches this transition
through `emit_track_advance`. -/
def process_playlist_jump (db : VaultDB) (discord_id : String) (st : SessionState)
    (new_idx : ℕ) (item_id : String) (new_track_secs : ℚ) (now : ℚ) :
    SessionState × List Action :=
  let st := ensure_playlist_length db st
  let sid := db.upsert_sid
  let st := { st with session_id := some sid }
  let upsert1 := Action.upsertSession discord_id st.user_playlist_id new_idx st.is_confirmed
  let prev_index := st.current_index
  let prev_item := st.current_item_id
  let prev_secs := st.seconds_accum
  let st := { st with
    current_index := new_idx
    current_item_id := item_id
    seconds_accum := new_track_secs
    track_started_at := some now }
  (st, [upsert1, Action.emitTrackAdvance discord_id prev_index prev_item prev_secs item_id])

/-- `_handle_non_sequential_jump`: for a confirmed (or advanced) session,
resolve the order index; outside the playlist ends the session with a
switch-away, inside it jumps with the 30 second seeding guard; an
unconfirmed first-track session is silently reset. -/
def handle_non_sequential_jump (db : VaultDB) (discord_id jellyfin_user_id item_id : String)
    (secs : ℕ) (now : ℚ) (st : SessionState) : Option SessionState × List Action :=
  let _ := jellyfin_user_id
  if st.is_confirmed = true ∨ 0 < st.current_index then
    match get_order_index_for_item db st.user_playlist_id item_id with
    | none => (none, [Action.emitSwitchAway discord_id item_id])
    | some new_idx =>
      let credited_jump_time : ℚ := if (secs : ℚ) ≤ SEED_TIME_GUARD_SECONDS then (secs : ℚ) else 0
      let r := process_playlist_jump db discord_id st new_idx item_id credited_jump_time now
      (some r.1, r.2)
  else (none, [])

/-- `_handle_item_change`: the next expected track (truthy and equal to the
observed item) routes to the sequential advance, anything else to the
non-sequential jump. -/
def handle_item_change (db : VaultDB) (discord_id jellyfin_user_id item_id : String)
    (secs : ℕ) (now : ℚ) (st : SessionState) : Option SessionState × List Action :=
  let next_idx := st.current_index + 1
  match get_playlist_track_at_index db st.user_playlist_id next_idx with
  | some expected_next =>
    if expected_next ≠ "" ∧ expected_next = item_id then
      handle_sequential_advance db discord_id item_id now st next_idx
    else
      handle_non_sequential_jump db discord_id jellyfin_user_id item_id secs now st
  | none => handle_non_sequential_jump db discord_id jellyfin_user_id item_id secs now st

/-- `_handle_existing_session`: a confirmed session observed outside its
playlist switches away; the same item accumulates; a different item routes
to the change handler. -/
def handle_existing_session (db : VaultDB) (discord_id jellyfin_user_id item_id : String)
    (secs : ℕ) (now : ℚ) (st : SessionState) : Option SessionState × List Action :=
  if st.is_confirmed = true ∧ item_id ∉ all_playlist_items db st.user_playlist_id then
    (none, [Action.emitSwitchAway discord_id item_id])
  else if st.current_item_id = item_id then
    handle_same_item_increment db discord_id st secs
  else
    handle_item_change db discord_id jellyfin_user_id item_id secs now st

/-- `_handle_session_seed`: zero candidates ignore the stream, a unique
candidate auto-confirms and persists a session row, several candidates
leave an unconfirmed state carrying the expected second track; the seeding
guard caps the credited initial time at 30 seconds. -/
def handle_session_seed (db : VaultDB) (discord_id jellyfin_user_id item_id : String)
    (initial_secs : ℕ) (now : ℚ) : Option SessionState × List Action :=
  let candidates := find_candidate_playlists_by_first_item db discord_id item_id
  match candidates with
  | [] => (none, [])
  | chosen :: _ =>
    let user_playlist_id := chosen.user_playlist_id
    let total_runtime := db.total_runtime user_playlist_id
    let jf_playlist_id := db.jf_playlist user_playlist_id
    let auto_confirm := candidates.length = 1
    let credited_initial_time : ℚ :=
      if (initial_secs : ℚ) ≤ SEED_TIME_GUARD_SECONDS then (initial_secs : ℚ) else 0
    let st : SessionState :=
      { session_id := none
        user_playlist_id := user_playlist_id
        jf_playlist_id := jf_playlist_id
        current_index := 0
        is_confirmed := auto_confirm
        current_item_id := item_id
        seconds_accum := credited_initial_time
        playlist_length := none
        playlist_total_runtime := total_runtime
        second_expected := chosen.second
        jellyfin_user_id := jellyfin_user_id
        track_started_at := some now }
    if auto_confirm then
      (some { st with session_id := some db.upsert_sid },
       [Action.upsertSession discord_id st.user_playlist_id st.current_index st.is_confirmed,
        Action.emitStart discord_id item_id])
    else
      (some st, [Action.emitStart discord_id item_id])

/-- `process_increment`, the single entry point of
`PlaylistIncrementProcessor`; `now` is the wall clock of this call. -/
def process_increment (db : VaultDB) (discord_id jellyfin_user_id item_id : String)
    (secs : ℕ) (now : ℚ) (current_state : Option SessionState) :
    Option SessionState × List Action :=
  match current_state with
  | none => handle_session_seed db discord_id jellyfin_user_id item_id secs now
  | some st => handle_existing_session db discord_id jellyfin_user_id item_id secs now st

end Incr

/-! ## Abandonment tracker (`session_abandon.py`) -/

namespace Abandon

open Incr

/-- Timing thresholds (in 15 second check cycles) of
`SessionAbandonmentTracker.__init__`. -/
def pause_threshold : ℕ := 20

def waiting_threshold : ℕ := 60

def abandonment_threshold : ℕ := 240

/-- `SessionSnapshot` dataclass: the frozen copy used to emit events after
the live state is gone. -/
structure SessionSnapshot where
  discord_id : String
  jellyfin_user_id : String
  user_playlist_id : ℕ
  playlist_name : String
  current_index : ℕ
  current_item_id : String
  current_item_title : Option String
  seconds_accum : ℚ
  session_id : Option ℕ
  last_seen : ℚ
deriving DecidableEq

/-- The per-user tracking dictionaries of `SessionAbandonmentTracker`. -/
structure AbandonState where
  user_absence_count : String → Option ℕ
  user_pause_time : String → Option ℚ
  user_notified_paused : String → Bool
  user_notified_waiting : String → Bool
  session_snapshots : String → Option SessionSnapshot

/-- Domain events dispatched by the abandonment tracker. -/
inductive AbandonEvent where
  | paused (discord_id : String) (minutes_absent : ℚ)
  | waiting (discord_id : String) (minutes_absent : ℚ)
  | resumed (discord_id : String) (minutes_away : ℚ)
deriving DecidableEq

/-- The user an abandonment event is about. -/
def AbandonEvent.discord : AbandonEvent → String
  | .paused d _ => d
  | .waiting d _ => d
  | .resumed d _ => d

def AbandonEvent.isPaused : AbandonEvent → Bool
  | .paused .. => true
  | _ => false

/-- `_reset_user_tracking`: pop all four tracking entries; snapshots are
managed separately. -/
def reset_user_tracking (ab : AbandonState) (discord_id : String) : AbandonState :=
  { ab with
    user_absence_count := updFn ab.user_absence_count discord_id none
    user_pause_time := updFn ab.user_pause_time discord_id none
    user_notified_paused := updFn ab.user_notified_paused discord_id false
    user_notified_waiting := updFn ab.user_notified_waiting discord_id false }

/-- `_emit_session_resumed_event`: minutes away are measured from the first
absence; the event is emitted only when the user was away at least the
pause threshold (5 minutes) and a snapshot is available. -/
def emit_session_resumed_event (ab : AbandonState) (discord_id : String) (resume_time : ℚ)
    (snapshot : Option SessionSnapshot) : List AbandonEvent :=
  let absence_start := (ab.user_pause_time discord_id).getD resume_time
  let minutes_away := (resume_time - absence_start) / 60
  if ((pause_threshold : ℚ) * 15 / 60) ≤ minutes_away then
    match snapshot with
    | some _ => [.resumed discord_id minutes_away]
    | none => []
  else []

/-- `_emit_session_paused_event` (the snapshot-less fallback only logs). -/
def emit_session_paused_event (ab : AbandonState) (discord_id : String) (pause_time : ℚ)
    (snapshot : Option SessionSnapshot) : List AbandonEvent :=
  let absence_start := (ab.user_pause_time discord_id).getD pause_time
  let minutes_absent := (pause_time - absence_start) / 60
  match snapshot with
  | some _ => [.paused discord_id minutes_absent]
  | none => []

/-- `_emit_session_waiting_event` (the snapshot-less fallback only logs). -/
def emit_session_waiting_event (ab : AbandonState) (discord_id : String) (waiting_time : ℚ)
    (snapshot : Option SessionSnapshot) : List AbandonEvent :=
  let absence_start := (ab.user_pause_time discord_id).getD waiting_time
  let minutes_absent := (waiting_time - absence_start) / 60
  match snapshot with
  | some _ => [.waiting discord_id minutes_absent]
  | none => []

/-- The first loop of `check_for_abandoned_sessions`: a streaming user who
was absent and notified paused resumes; all their tracking is reset. -/
def streaming_step (now : ℚ) (acc : AbandonState × List AbandonEvent) (discord_id : String) :
    AbandonState × List AbandonEvent :=
  let ab := acc.1
  let evs :=
    if (ab.user_absence_count discord_id).isSome = true ∧
        ab.user_notified_paused discord_id = true then
      acc.2 ++ emit_session_resumed_event ab discord_id now (ab.session_snapshots discord_id)
    else acc.2
  (reset_user_tracking ab discord_id, evs)

/-- The second loop of `check_for_abandoned_sessions`: one absent tracked
user; increments the absence count, stamps the first absence, emits the
staged paused/waiting notifications once each, and past the abandonment
threshold marks the user abandoned and resets their counters. -/
def absent_step (now : ℚ) (acc : AbandonState × List String × List AbandonEvent)
    (discord_id : String) : AbandonState × List String × List AbandonEvent :=
  let ab := acc.1
  let abandoned_users := acc.2.1
  let evs := acc.2.2
  let absence_count := (ab.user_absence_count discord_id).getD 0 + 1
  let ab := { ab with user_absence_count := updFn ab.user_absence_count discord_id (some absence_count) }
  let ab :=
    if absence_count = 1 then
      { ab with user_pause_time := updFn ab.user_pause_time discord_id (some now) }
    else ab
  let snapshot := ab.session_snapshots discord_id
  if absence_count = pause_threshold ∧ ab.user_notified_paused discord_id = false then
    ({ ab with user_notified_paused := updFn ab.user_notified_paused discord_id true },
     abandoned_users,
     evs ++ emit_session_paused_event ab discord_id now snapshot)
  else if absence_count = waiting_threshold ∧ ab.user_notified_waiting discord_id = false then
    ({ ab with user_notified_waiting := updFn ab.user_notified_waiting discord_id true },
     abandoned_users,
     evs ++ emit_session_waiting_event ab discord_id now snapshot)
  else if abandonment_threshold ≤ absence_count then
    (reset_user_tracking ab discord_id, abandoned_users ++ [discord_id], evs)
  else (ab, abandoned_users, evs)

/-- `_cleanup_untracked_users`: reset tracking for users with an absence
entry who are no longer tracked, and drop snapshots of untracked users. -/
def cleanup_untracked_users (ab : AbandonState) (currently_tracked : List String) :
    AbandonState :=
  { user_absence_count := fun id =>
      if id ∈ currently_tracked then ab.user_absence_count id else none
    user_pause_time := fun id =>
      if id ∉ currently_tracked ∧ (ab.user_absence_count id).isSome = true then none
      else ab.user_pause_time id
    user_notified_paused := fun id =>
      if id ∉ currently_tracked ∧ (ab.user_absence_count id).isSome = true then false
      else ab.user_notified_paused id
    user_notified_waiting := fun id =>
      if id ∉ currently_tracked ∧ (ab.user_absence_count id).isSome = true then false
      else ab.user_notified_waiting id
    session_snapshots := fun id =>
      if id ∈ currently_tracked then ab.session_snapshots id else none }

/-- `SessionAbandonmentTracker.check_for_abandoned_sessions`: reset (and
possibly resume) the streaming users, stage the absent tracked users, then
clean up tracking of untracked users.  Returns the new tracking state, the
users whose sessions are officially abandoned this pass, and the dispatched
events. -/
def check_for_abandoned_sessions (ab : AbandonState)
    (current_streaming_discord_ids currently_tracked : List String) (now : ℚ) :
    AbandonState × List String × List AbandonEvent :=
  let r1 := current_streaming_discord_ids.foldl (streaming_step now) (ab, [])
  let absent_tracked_users :=
    currently_tracked.filter (fun id => id ∉ current_streaming_discord_ids)
  let r2 := absent_tracked_users.foldl (absent_step now) (r1.1, [], r1.2)
  (cleanup_untracked_users r2.1 currently_tracked, r2.2.1, r2.2.2)

/-- `handle_session_abandonment`: unconfirmed sessions are not processed
(only their snapshot is dropped); confirmed sessions record the remaining
time on the current track (full runtime when at least the completion
percentage was heard) and emit the abandonment event, preferring the
snapshot.  (The `except` fallback of the source is not taken by the pure
model.) -/
def handle_session_abandonment (db : VaultDB) (ab : AbandonState) (discord_id : String)
    (st : SessionState) : Bool × AbandonState × List Action :=
  if st.is_confirmed = false then
    (false, { ab with session_snapshots := updFn ab.session_snapshots discord_id none }, [])
  else
    let record_acts :=
      match st.session_id with
      | some sid =>
        if sid ≠ 0 ∧ 0 < st.seconds_accum then
          let track_runtime := get_track_runtime db st.current_item_id
          let completion_threshold := track_runtime * COMPLETION_PERCENTAGE
          let time_to_record :=
            if completion_threshold ≤ st.seconds_accum then track_runtime else st.seconds_accum
          [Action.recordFileCompletion sid st.current_item_id st.current_index time_to_record]
        else []
      | none => []
    match ab.session_snapshots discord_id with
    | some _ =>
      (true, { ab with session_snapshots := updFn ab.session_snapshots discord_id none },
       record_acts ++ [Action.emitSessionAbandoned discord_id true])
    | none =>
      (true, ab, record_acts ++ [Action.emitSessionAbandoned discord_id false])

/-- One user's slice of the tracking dictionaries. -/
structure UserView where
  cnt : Option ℕ
  pt : Option ℚ
  np : Bool
  nw : Bool
  snap : Option SessionSnapshot
deriving DecidableEq

def viewOf (ab : AbandonState) (discord_id : String) : UserView :=
  ⟨ab.user_absence_count discord_id, ab.user_pause_time discord_id,
   ab.user_notified_paused discord_id, ab.user_notified_waiting discord_id,
   ab.session_snapshots discord_id⟩

theorem emit_resumed_shape (ab : AbandonState) (j : String) (t : ℚ)
    (snap : Option SessionSnapshot) :
    ∀ e ∈ emit_session_resumed_event ab j t snap, e.discord = j ∧ e.isPaused = false := by
  intro e he
  simp only [emit_session_resumed_event] at he
  split at he
  · cases snap with
    | none => cases he
    | some s =>
      simp only [List.mem_singleton] at he
      subst he
      exact ⟨rfl, rfl⟩
  · cases he

theorem emit_paused_shape (ab : AbandonState) (j : String) (t : ℚ)
    (snap : Option SessionSnapshot) :
    ∀ e ∈ emit_session_paused_event ab j t snap, e.discord = j := by
  intro e he
  simp only [emit_session_paused_event] at he
  cases snap with
  | none => cases he
  | some s =>
    simp only [List.mem_singleton] at he
    subst he
    rfl

theorem emit_waiting_shape (ab : AbandonState) (j : String) (t : ℚ)
    (snap : Option SessionSnapshot) :
    ∀ e ∈ emit_session_waiting_event ab j t snap, e.discord = j ∧ e.isPaused = false := by
  intro e he
  simp only [emit_session_waiting_event] at he
  cases snap with
  | none => cases he
  | some s =>
    simp only [List.mem_singleton] at he
    subst he
    exact ⟨rfl, rfl⟩

theorem reset_view_other (ab : AbandonState) (j : String) {id : String} (h : id ≠ j) :
    viewOf (reset_user_tracking ab j) id = viewOf ab id := by
  simp [viewOf, reset_user_tracking, updFn, h]

theorem streaming_step_view_other (now : ℚ) (acc : AbandonState × List AbandonEvent)
    (j : String) {id : String} (h : id ≠ j) :
    viewOf (streaming_step now acc j).1 id = viewOf acc.1 id := by
  simp only [streaming_step]
  exact reset_view_other acc.1 j h

theorem streaming_step_evs (now : ℚ) (acc : AbandonState × List AbandonEvent) (j : String) :
    ∃ extra, (streaming_step now acc j).2 = acc.2 ++ extra ∧
      ∀ e ∈ extra, e.discord = j ∧ e.isPaused = false := by
  simp only [streaming_step]
  split
  · exact ⟨_, rfl, emit_resumed_shape acc.1 j now (acc.1.session_snapshots j)⟩
  · exact ⟨[], by simp, by simp⟩

theorem absent_step_view_other (now : ℚ)
    (acc : AbandonState × List String × List AbandonEvent) (j : String)
    {id : String} (h : id ≠ j) :
    viewOf (absent_step now acc j).1 id = viewOf acc.1 id := by
  simp only [absent_step]
  split_ifs <;> simp [viewOf, reset_user_tracking, updFn, h]

theorem absent_step_abandoned (now : ℚ)
    (acc : AbandonState × List String × List AbandonEvent) (j : String) :
    (absent_step now acc j).2.1 = acc.2.1 ∨
      (absent_step now acc j).2.1 = acc.2.1 ++ [j] := by
  simp only [absent_step]
  split_ifs <;> simp

theorem absent_step_evs (now : ℚ)
    (acc : AbandonState × List String × List AbandonEvent) (j : String) :
    ∃ extra, (absent_step now acc j).2.2 = acc.2.2 ++ extra ∧
      ∀ e ∈ extra, e.discord = j := by
  simp only [absent_step]
  split_ifs <;>
    first
      | (refine ⟨[], ?_, ?_⟩ <;> simp; done)
      | (refine ⟨_, rfl, ?_⟩; exact emit_paused_shape _ j now _)
      | (refine ⟨_, rfl, ?_⟩; intro e he; exact (emit_waiting_shape _ j now _ e he).1)

theorem absent_step_evs_np (now : ℚ)
    (acc : AbandonState × List String × List AbandonEvent) (j : String)
    (hnp : acc.1.user_notified_paused j = true) :
    ∃ extra, (absent_step now acc j).2.2 = acc.2.2 ++ extra ∧
      ∀ e ∈ extra, e.isPaused = false := by
  simp only [absent_step]
  split_ifs <;>
    first
      | (refine ⟨[], ?_, ?_⟩ <;> simp; done)
      | (refine ⟨_, rfl, ?_⟩; intro e he; exact (emit_waiting_shape _ j now _ e he).2)
      | (exfalso; simp_all)

theorem streaming_fold_view (now : ℚ) (S : List String) :
    ∀ (acc : AbandonState × List AbandonEvent) (id : String), id ∉ S →
      viewOf (S.foldl (streaming_step now) acc).1 id = viewOf acc.1 id := by
  induction S with
  | nil => intro acc id _; rfl
  | cons j rest ih =>
    intro acc id hid
    have hne : id ≠ j := fun h => hid (h ▸ List.mem_cons_self j rest)
    have hrest : id ∉ rest := fun h => hid (List.mem_cons_of_mem j h)
    rw [List.foldl_cons]
    rw [ih _ id hrest]
    exact streaming_step_view_other now acc j hne

theorem streaming_fold_evs (now : ℚ) (S : List String) :
    ∀ (acc : AbandonState × List AbandonEvent),
      ∃ extra, (S.foldl (streaming_step now) acc).2 = acc.2 ++ extra ∧
        ∀ e ∈ extra, e.discord ∈ S ∧ e.isPaused = false := by
  induction S with
  | nil => intro acc; exact ⟨[], by simp, by simp⟩
  | cons j rest ih =>
    intro acc
    obtain ⟨e1, he1, hall1⟩ := streaming_step_evs now acc j
    obtain ⟨e2, he2, hall2⟩ := ih (streaming_step now acc j)
    refine ⟨e1 ++ e2, ?_, ?_⟩
    · rw [List.foldl_cons, he2, he1, List.append_assoc]
    · intro e he
      rcases List.mem_append.mp he with h | h
      · exact ⟨(hall1 e h).1 ▸ List.mem_cons_self j rest, (hall1 e h).2⟩
      · exact ⟨List.mem_cons_of_mem j (hall2 e h).1, (hall2 e h).2⟩

theorem absent_fold_view (now : ℚ) (L : List String) :
    ∀ (acc : AbandonState × List String × List AbandonEvent) (id : String), id ∉ L →
      viewOf (L.foldl (absent_step now) acc).1 id = viewOf acc.1 id := by
  induction L with
  | nil => intro acc id _; rfl
  | cons j rest ih =>
    intro acc id hid
    have hne : id ≠ j := fun h => hid (h ▸ List.mem_cons_self j rest)
    have hrest : id ∉ rest := fun h => hid (List.mem_cons_of_mem j h)
    rw [List.foldl_cons, ih _ id hrest]
    exact absent_step_view_other now acc j hne

theorem absent_fold_evs (now : ℚ) (L : List String) :
    ∀ (acc : AbandonState × List String × List AbandonEvent),
      ∃ extra, (L.foldl (absent_step now) acc).2.2 = acc.2.2 ++ extra ∧
        ∀ e ∈ extra, e.discord ∈ L := by
  induction L with
  | nil => intro acc; exact ⟨[], by simp, by simp⟩
  | cons j rest ih =>
    intro acc
    obtain ⟨e1, he1, hall1⟩ := absent_step_evs now acc j
    obtain ⟨e2, he2, hall2⟩ := ih (absent_step now acc j)
    refine ⟨e1 ++ e2, ?_, ?_⟩
    · rw [List.foldl_cons, he2, he1, List.append_assoc]
    · intro e he
      rcases List.mem_append.mp he with h | h
      · exact (hall1 e h) ▸ List.mem_cons_self j rest
      · exact List.mem_cons_of_mem j (hall2 e h)

theorem absent_fold_abandoned_mono (now : ℚ) (L : List String) :
    ∀ (acc : AbandonState × List String × List AbandonEvent) (x : String),
      x ∈ acc.2.1 → x ∈ (L.foldl (absent_step now) acc).2.1 := by
  induction L with
  | nil => intro acc x hx; exact hx
  | cons j rest ih =>
    intro acc x hx
    rw [List.foldl_cons]
    apply ih
    rcases absent_step_abandoned now acc j with h | h <;> rw [h]
    · exact hx
    · exact List.mem_append_left _ hx

theorem absent_fold_evs_mono (now : ℚ) (L : List String)
    (acc : AbandonState × List String × List AbandonEvent) (e : AbandonEvent)
    (he : e ∈ acc.2.2) : e ∈ (L.foldl (absent_step now) acc).2.2 := by
  obtain ⟨extra, heq, _⟩ := absent_fold_evs now L acc
  rw [heq]
  exact List.mem_append_left _ he

/-- The streaming loop resumes a user who was absent past the pause
threshold: the resumed event (minutes measured from the first absence) is
emitted and all four counters are reset. -/
theorem streaming_fold_resumed (now : ℚ) (S : List String) :
    ∀ (acc : AbandonState × List AbandonEvent) (id : String), S.Nodup → id ∈ S →
      (acc.1.user_absence_count id).isSome = true →
      acc.1.user_notified_paused id = true →
      ∀ t0 : ℚ, acc.1.user_pause_time id = some t0 →
      ∀ snap : SessionSnapshot, acc.1.session_snapshots id = some snap →
      (pause_threshold : ℚ) * 15 / 60 ≤ (now - t0) / 60 →
      AbandonEvent.resumed id ((now - t0) / 60) ∈ (S.foldl (streaming_step now) acc).2 ∧
        viewOf (S.foldl (streaming_step now) acc).1 id
          = ⟨none, none, false, false, some snap⟩ := by
  induction S with
  | nil => intro acc id _ hid; cases hid
  | cons j rest ih =>
    intro acc id hnd hid hcnt hnp t0 hpt snap hsnap hmin
    rw [List.nodup_cons] at hnd
    rw [List.foldl_cons]
    by_cases hj : id = j
    · subst hj
      have hstep : streaming_step now acc id
          = (reset_user_tracking acc.1 id, acc.2 ++ [AbandonEvent.resumed id ((now - t0) / 60)]) := by
        simp only [streaming_step]
        rw [if_pos ⟨hcnt, hnp⟩]
        simp only [emit_session_resumed_event, hpt, Option.getD_some, hsnap]
        rw [if_pos hmin]
      rw [hstep]
      constructor
      · obtain ⟨extra, heq, _⟩ := streaming_fold_evs now rest (reset_user_tracking acc.1 id,
          acc.2 ++ [AbandonEvent.resumed id ((now - t0) / 60)])
        rw [heq]
        exact List.mem_append_left _ (List.mem_append_right _ (List.mem_singleton.mpr rfl))
      · rw [streaming_fold_view now rest _ id hnd.1]
        simp [viewOf, reset_user_tracking, updFn, hsnap]
    · have hview := streaming_step_view_other now acc j hj
      have hix : id ∈ rest := by
        rcases List.mem_cons.mp hid with h | h
        · exact absurd h hj
        · exact h
      apply ih (streaming_step now acc j) id hnd.2 hix
      · rw [show (streaming_step now acc j).1.user_absence_count id
          = (viewOf (streaming_step now acc j).1 id).cnt from rfl, hview]
        exact hcnt
      · rw [show (streaming_step now acc j).1.user_notified_paused id
          = (viewOf (streaming_step now acc j).1 id).np from rfl, hview]
        exact hnp
      · rw [show (streaming_step now acc j).1.user_pause_time id
          = (viewOf (streaming_step now acc j).1 id).pt from rfl, hview]
        exact hpt
      · rw [show (streaming_step now acc j).1.session_snapshots id
          = (viewOf (streaming_step now acc j).1 id).snap from rfl, hview]
        exact hsnap
      · exact hmin

/-- The absent loop emits the paused event exactly when the absence count
reaches the pause threshold with the notified flag still clear, and sets
the flag. -/
theorem absent_fold_paused_fires (now : ℚ) (L : List String) :
    ∀ (acc : AbandonState × List String × List AbandonEvent) (id : String),
      L.Nodup → id ∈ L →
      acc.1.user_absence_count id = some (pause_threshold - 1) →
      acc.1.user_notified_paused id = false →
      ∀ t0 : ℚ, acc.1.user_pause_time id = some t0 →
      ∀ snap : SessionSnapshot, acc.1.session_snapshots id = some snap →
      AbandonEvent.paused id ((now - t0) / 60) ∈ (L.foldl (absent_step now) acc).2.2 ∧
        (L.foldl (absent_step now) acc).1.user_notified_paused id = true := by
  induction L with
  | nil => intro acc id _ hid; cases hid
  | cons j rest ih =>
    intro acc id hnd hid hcnt hnp t0 hpt snap hsnap
    rw [List.nodup_cons] at hnd
    rw [List.foldl_cons]
    by_cases hj : id = j
    · subst hj
      constructor
      · apply absent_fold_evs_mono
        simp only [absent_step, hcnt, Option.getD_some]
        simp only [if_neg (show ¬(pause_threshold - 1 + 1 = 1) by decide)]
        rw [if_pos ⟨show pause_threshold - 1 + 1 = pause_threshold by decide, hnp⟩]
        simp [emit_session_paused_event, hpt, hsnap]
      · have hstepnp : (absent_step now acc id).1.user_notified_paused id = true := by
          simp only [absent_step, hcnt, Option.getD_some]
          simp only [if_neg (show ¬(pause_threshold - 1 + 1 = 1) by decide)]
          rw [if_pos ⟨show pause_threshold - 1 + 1 = pause_threshold by decide, hnp⟩]
          simp [updFn]
        have hv := absent_fold_view now rest (absent_step now acc id) id hnd.1
        have : (rest.foldl (absent_step now) (absent_step now acc id)).1.user_notified_paused id
            = (absent_step now acc id).1.user_notified_paused id :=
          congrArg UserView.np hv
        rw [this, hstepnp]
    · have hview := absent_step_view_other now acc j hj
      have hix : id ∈ rest := by
        rcases List.mem_cons.mp hid with h | h
        · exact absurd h hj
        · exact h
      apply ih (absent_step now acc j) id hnd.2 hix
      · rw [show (absent_step now acc j).1.user_absence_count id
          = (viewOf (absent_step now acc j).1 id).cnt from rfl, hview]
        exact hcnt
      · rw [show (absent_step now acc j).1.user_notified_paused id
          = (viewOf (absent_step now acc j).1 id).np from rfl, hview]
        exact hnp
      · rw [show (absent_step now acc j).1.user_pause_time id
          = (viewOf (absent_step now acc j).1 id).pt from rfl, hview]
        exact hpt
      · rw [show (absent_step now acc j).1.session_snapshots id
          = (viewOf (absent_step now acc j).1 id).snap from rfl, hview]
        exact hsnap

/-- While the notified-paused flag is set, an absent pass emits no further
paused event for that user. -/
theorem absent_fold_no_paused (now : ℚ) (L : List String) :
    ∀ (acc : AbandonState × List String × List AbandonEvent) (id : String),
      L.Nodup → acc.1.user_notified_paused id = true →
      ∀ m : ℚ, AbandonEvent.paused id m ∈ (L.foldl (absent_step now) acc).2.2 →
        AbandonEvent.paused id m ∈ acc.2.2 := by
  induction L with
  | nil => intro acc id _ _ m hm; exact hm
  | cons j rest ih =>
    intro acc id hnd hnp m hm
    rw [List.nodup_cons] at hnd
    rw [List.foldl_cons] at hm
    by_cases hj : id = j
    · subst hj
      obtain ⟨extra2, heq2, hall2⟩ := absent_fold_evs now rest (absent_step now acc id)
      rw [heq2] at hm
      rcases List.mem_append.mp hm with h | h
      · obtain ⟨extra1, heq1, hall1⟩ := absent_step_evs_np now acc id hnp
        rw [heq1] at h
        rcases List.mem_append.mp h with h' | h'
        · exact h'
        · have := hall1 _ h'
          simp [AbandonEvent.isPaused] at this
      · have := hall2 _ h
        simp only [AbandonEvent.discord] at this
        exact absurd this hnd.1
    · have hview := absent_step_view_other now acc j hj
      have hnp' : (absent_step now acc j).1.user_notified_paused id = true := by
        rw [show (absent_step now acc j).1.user_notified_paused id
          = (viewOf (absent_step now acc j).1 id).np from rfl, hview]
        exact hnp
      have := ih (absent_step now acc j) id hnd.2 hnp' m hm
      obtain ⟨extra1, heq1, hall1⟩ := absent_step_evs now acc j
      rw [heq1] at this
      rcases List.mem_append.mp this with h | h
      · exact h
      · have := hall1 _ h
        simp only [AbandonEvent.discord] at this
        exact absurd this hj

theorem absent_fold_cnt_other (now : ℚ) (L : List String)
    (acc : AbandonState × List String × List AbandonEvent) (id : String) (h : id ∉ L) :
    (L.foldl (absent_step now) acc).1.user_absence_count id
      = acc.1.user_absence_count id :=
  congrArg UserView.cnt (absent_fold_view now L acc id h)

theorem absent_fold_pt_other (now : ℚ) (L : List String)
    (acc : AbandonState × List String × List AbandonEvent) (id : String) (h : id ∉ L) :
    (L.foldl (absent_step now) acc).1.user_pause_time id
      = acc.1.user_pause_time id :=
  congrArg UserView.pt (absent_fold_view now L acc id h)

theorem absent_fold_np_other (now : ℚ) (L : List String)
    (acc : AbandonState × List String × List AbandonEvent) (id : String) (h : id ∉ L) :
    (L.foldl (absent_step now) acc).1.user_notified_paused id
      = acc.1.user_notified_paused id :=
  congrArg UserView.np (absent_fold_view now L acc id h)

theorem absent_fold_nw_other (now : ℚ) (L : List String)
    (acc : AbandonState × List String × List AbandonEvent) (id : String) (h : id ∉ L) :
    (L.foldl (absent_step now) acc).1.user_notified_waiting id
      = acc.1.user_notified_waiting id :=
  congrArg UserView.nw (absent_fold_view now L acc id h)

theorem check_fst (ab : AbandonState) (S T : List String) (now : ℚ) :
    (check_for_abandoned_sessions ab S T now).1
      = cleanup_untracked_users
          ((T.filter (fun x => x ∉ S)).foldl (absent_step now)
            ((S.foldl (streaming_step now) (ab, [])).1, [],
              (S.foldl (streaming_step now) (ab, [])).2)).1 T := rfl

theorem check_abandoned (ab : AbandonState) (S T : List String) (now : ℚ) :
    (check_for_abandoned_sessions ab S T now).2.1
      = ((T.filter (fun x => x ∉ S)).foldl (absent_step now)
          ((S.foldl (streaming_step now) (ab, [])).1, [],
            (S.foldl (streaming_step now) (ab, [])).2)).2.1 := rfl

theorem check_evs (ab : AbandonState) (S T : List String) (now : ℚ) :
    (check_for_abandoned_sessions ab S T now).2.2
      = ((T.filter (fun x => x ∉ S)).foldl (absent_step now)
          ((S.foldl (streaming_step now) (ab, [])).1, [],
            (S.foldl (streaming_step now) (ab, [])).2)).2.2 := rfl

theorem cleanup_cnt (ab : AbandonState) (T : List String) (id : String) :
    (cleanup_untracked_users ab T).user_absence_count id
      = if id ∈ T then ab.user_absence_count id else none := rfl

theorem cleanup_pt (ab : AbandonState) (T : List String) (id : String) :
    (cleanup_untracked_users ab T).user_pause_time id
      = if id ∉ T ∧ (ab.user_absence_count id).isSome = true then none
        else ab.user_pause_time id := rfl

theorem cleanup_np (ab : AbandonState) (T : List String) (id : String) :
    (cleanup_untracked_users ab T).user_notified_paused id
      = if id ∉ T ∧ (ab.user_absence_count id).isSome = true then false
        else ab.user_notified_paused id := rfl

theorem cleanup_nw (ab : AbandonState) (T : List String) (id : String) :
    (cleanup_untracked_users ab T).user_notified_waiting id
      = if id ∉ T ∧ (ab.user_absence_count id).isSome = true then false
        else ab.user_notified_waiting id := rfl

/-- C9: across abandonment-check passes, (1) a tracked user who stays
absent gets the `Paused` event exactly at the pass where their absence
count reaches the pause threshold (the notified flag is set in the same
pass), (2) no further `Paused` event is ever emitted for them while the
flag is set, and (3) a user who returns to the streaming set after having
been notified paused gets a `Resumed` event whose minutes away are
computed from the first-absence timestamp, with all absence counters and
notified flags reset.  The wall-clock hypothesis of (3) — at least
`pause_threshold` minutes between the first absence and the return — is
what the assumed 15-second polling cadence guarantees after
`pause_threshold` absent passes; the snapshot hypotheses reflect that
snapshots are refreshed for every tracked user before each check. -/
theorem c9_absence_staging (ab : AbandonState) (streaming tracked : List String)
    (now t0 : ℚ) (id : String) (snap : SessionSnapshot) :
    (tracked.Nodup → id ∈ tracked → id ∉ streaming →
      ab.user_absence_count id = some (pause_threshold - 1) →
      ab.user_notified_paused id = false →
      ab.user_pause_time id = some t0 →
      ab.session_snapshots id = some snap →
      AbandonEvent.paused id ((now - t0) / 60)
          ∈ (check_for_abandoned_sessions ab streaming tracked now).2.2 ∧
        (check_for_abandoned_sessions ab streaming tracked now).1.user_notified_paused id
          = true) ∧
    (tracked.Nodup → id ∉ streaming →
      ab.user_notified_paused id = true →
      ∀ m : ℚ, AbandonEvent.paused id m
        ∉ (check_for_abandoned_sessions ab streaming tracked now).2.2) ∧
    (streaming.Nodup → id ∈ streaming →
      (ab.user_absence_count id).isSome = true →
      ab.user_notified_paused id = true →
      ab.user_pause_time id = some t0 →
      ab.session_snapshots id = some snap →
      (pause_threshold : ℚ) * 15 / 60 ≤ (now - t0) / 60 →
      AbandonEvent.resumed id ((now - t0) / 60)
          ∈ (check_for_abandoned_sessions ab streaming tracked now).2.2 ∧
        (check_for_abandoned_sessions ab streaming tracked now).1.user_absence_count id
          = none ∧
        (check_for_abandoned_sessions ab streaming tracked now).1.user_pause_time id
          = none ∧
        (check_for_abandoned_sessions ab streaming tracked now).1.user_notified_paused id
          = false ∧
        (check_for_abandoned_sessions ab streaming tracked now).1.user_notified_waiting id
          = false) := by
  have hr1 : ∀ h : id ∉ streaming,
      viewOf (List.foldl (streaming_step now) (ab, []) streaming).1 id = viewOf ab id :=
    fun h => streaming_fold_view now streaming (ab, []) id h
  refine ⟨?_, ?_, ?_⟩
  · intro hndT hidT hidS hcnt hnp hpt hsnap
    have hv1 := hr1 hidS
    have hcnt1 : (List.foldl (streaming_step now) (ab, []) streaming).1.user_absence_count id
        = some (pause_threshold - 1) := by
      rw [show (List.foldl (streaming_step now) (ab, []) streaming).1.user_absence_count id
        = (viewOf (List.foldl (streaming_step now) (ab, []) streaming).1 id).cnt from rfl, hv1]
      exact hcnt
    have hnp1 : (List.foldl (streaming_step now) (ab, []) streaming).1.user_notified_paused id
        = false := by
      rw [show (List.foldl (streaming_step now) (ab, []) streaming).1.user_notified_paused id
        = (viewOf (List.foldl (streaming_step now) (ab, []) streaming).1 id).np from rfl, hv1]
      exact hnp
    have hpt1 : (List.foldl (streaming_step now) (ab, []) streaming).1.user_pause_time id
        = some t0 := by
      rw [show (List.foldl (streaming_step now) (ab, []) streaming).1.user_pause_time id
        = (viewOf (List.foldl (streaming_step now) (ab, []) streaming).1 id).pt from rfl, hv1]
      exact hpt
    have hsnap1 : (List.foldl (streaming_step now) (ab, []) streaming).1.session_snapshots id
        = some snap := by
      rw [show (List.foldl (streaming_step now) (ab, []) streaming).1.session_snapshots id
        = (viewOf (List.foldl (streaming_step now) (ab, []) streaming).1 id).snap from rfl, hv1]
      exact hsnap
    constructor
    · rw [check_evs]
      exact (absent_fold_paused_fires now _ _ id (hndT.filter _)
        (List.mem_filter.mpr ⟨hidT, by simp [hidS]⟩) hcnt1 hnp1 t0 hpt1 snap hsnap1).1
    · rw [check_fst, cleanup_np]
      rw [if_neg (by simp [hidT])]
      exact (absent_fold_paused_fires now _ _ id (hndT.filter _)
        (List.mem_filter.mpr ⟨hidT, by simp [hidS]⟩) hcnt1 hnp1 t0 hpt1 snap hsnap1).2
  · intro hndT hidS hnp m hm
    rw [check_evs] at hm
    have hv1 := hr1 hidS
    have hnp1 : (List.foldl (streaming_step now) (ab, []) streaming).1.user_notified_paused id
        = true := by
      rw [show (List.foldl (streaming_step now) (ab, []) streaming).1.user_notified_paused id
        = (viewOf (List.foldl (streaming_step now) (ab, []) streaming).1 id).np from rfl, hv1]
      exact hnp
    have hin1 := absent_fold_no_paused now _ _ id (hndT.filter _) hnp1 m hm
    obtain ⟨extra, heq, hall⟩ := streaming_fold_evs now streaming (ab, [])
    dsimp only at hin1
    rw [heq] at hin1
    simp only [List.nil_append] at hin1
    have := (hall _ hin1).2
    simp [AbandonEvent.isPaused] at this
  · intro hndS hidS hcnt hnp hpt hsnap hmin
    have hres := streaming_fold_resumed now streaming (ab, []) id hndS hidS hcnt hnp t0 hpt
      snap hsnap hmin
    have hscnt : (List.foldl (streaming_step now) (ab, []) streaming).1.user_absence_count id
        = none := by
      rw [show (List.foldl (streaming_step now) (ab, []) streaming).1.user_absence_count id
        = (viewOf (List.foldl (streaming_step now) (ab, []) streaming).1 id).cnt from rfl,
        hres.2]
    have hspt : (List.foldl (streaming_step now) (ab, []) streaming).1.user_pause_time id
        = none := by
      rw [show (List.foldl (streaming_step now) (ab, []) streaming).1.user_pause_time id
        = (viewOf (List.foldl (streaming_step now) (ab, []) streaming).1 id).pt from rfl,
        hres.2]
    have hsnp : (List.foldl (streaming_step now) (ab, []) streaming).1.user_notified_paused id
        = false := by
      rw [show (List.foldl (streaming_step now) (ab, []) streaming).1.user_notified_paused id
        = (viewOf (List.foldl (streaming_step now) (ab, []) streaming).1 id).np from rfl,
        hres.2]
    have hsnw : (List.foldl (streaming_step now) (ab, []) streaming).1.user_notified_waiting id
        = false := by
      rw [show (List.foldl (streaming_step now) (ab, []) streaming).1.user_notified_waiting id
        = (viewOf (List.foldl (streaming_step now) (ab, []) streaming).1 id).nw from rfl,
        hres.2]
    refine ⟨?_, ?_, ?_, ?_, ?_⟩
    · rw [check_evs]
      exact absent_fold_evs_mono now _ _ _ hres.1
    · rw [check_fst, cleanup_cnt,
        absent_fold_cnt_other now _ _ id
          (fun hmem => absurd (List.mem_filter.mp hmem).2 (by simp [hidS])),
        hscnt, ite_self]
    · rw [check_fst, cleanup_pt,
        absent_fold_cnt_other now _ _ id
          (fun hmem => absurd (List.mem_filter.mp hmem).2 (by simp [hidS])),
        absent_fold_pt_other now _ _ id
          (fun hmem => absurd (List.mem_filter.mp hmem).2 (by simp [hidS])),
        hscnt, hspt]
      simp
    · rw [check_fst, cleanup_np,
        absent_fold_cnt_other now _ _ id
          (fun hmem => absurd (List.mem_filter.mp hmem).2 (by simp [hidS])),
        absent_fold_np_other now _ _ id
          (fun hmem => absurd (List.mem_filter.mp hmem).2 (by simp [hidS])),
        hscnt, hsnp]
      simp
    · rw [check_fst, cleanup_nw,
        absent_fold_cnt_other now _ _ id
          (fun hmem => absurd (List.mem_filter.mp hmem).2 (by simp [hidS])),
        absent_fold_nw_other now _ _ id
          (fun hmem => absurd (List.mem_filter.mp hmem).2 (by simp [hidS])),
        hscnt, hsnw]
      simp

/-- Concrete snapshot and tracking states for the C9 witness. -/
def c9DemoSnap : SessionSnapshot :=
  { discord_id := "u", jellyfin_user_id := "jfu", user_playlist_id := 1,
    playlist_name := "P", current_index := 0, current_item_id := "a",
    current_item_title := some "A", seconds_accum := 10, session_id := some 5,
    last_seen := 0 }

/-- User `"u"` absent for 19 passes, not yet notified. -/
def c9DemoAbPre : AbandonState :=
  { user_absence_count := fun x => if x = "u" then some 19 else none
    user_pause_time := fun x => if x = "u" then some 0 else none
    user_notified_paused := fun _ => false
    user_notified_waiting := fun _ => false
    session_snapshots := fun x => if x = "u" then some c9DemoSnap else none }

/-- User `"u"` absent past the pause threshold and already notified. -/
def c9DemoAbNotified : AbandonState :=
  { user_absence_count := fun x => if x = "u" then some 25 else none
    user_pause_time := fun x => if x = "u" then some 0 else none
    user_notified_paused := fun x => x = "u"
    user_notified_waiting := fun _ => false
    session_snapshots := fun x => if x = "u" then some c9DemoSnap else none }

/-- Witness for C9: the pause fires at the 20th absent pass, never fires
again afterwards, and the return emits `Resumed` with the time away. -/
theorem c9_absence_staging_witness :
    (AbandonEvent.paused "u" ((300 - 0) / 60)
        ∈ (check_for_abandoned_sessions c9DemoAbPre [] ["u"] 300).2.2 ∧
      (check_for_abandoned_sessions c9DemoAbPre [] ["u"] 300).1.user_notified_paused "u"
        = true) ∧
    (∀ m : ℚ, AbandonEvent.paused "u" m
      ∉ (check_for_abandoned_sessions c9DemoAbNotified [] ["u"] 400).2.2) ∧
    (AbandonEvent.resumed "u" ((400 - 0) / 60)
        ∈ (check_for_abandoned_sessions c9DemoAbNotified ["u"] ["u"] 400).2.2 ∧
      (check_for_abandoned_sessions c9DemoAbNotified ["u"] ["u"] 400).1.user_absence_count "u"
        = none ∧
      (check_for_abandoned_sessions c9DemoAbNotified ["u"] ["u"] 400).1.user_pause_time "u"
        = none ∧
      (check_for_abandoned_sessions c9DemoAbNotified ["u"] ["u"] 400).1.user_notified_paused "u"
        = false ∧
      (check_for_abandoned_sessions c9DemoAbNotified ["u"] ["u"] 400).1.user_notified_waiting "u"
        = false) :=
  ⟨(c9_absence_staging c9DemoAbPre [] ["u"] 300 0 "u" c9DemoSnap).1
      (by decide) (by decide) (by decide) (by decide) (by decide) (by decide) (by decide),
   (c9_absence_staging c9DemoAbNotified [] ["u"] 400 0 "u" c9DemoSnap).2.1
      (by decide) (by decide) (by decide),
   (c9_absence_staging c9DemoAbNotified ["u"] ["u"] 400 0 "u" c9DemoSnap).2.2
      (by decide) (by decide) (by decide) (by decide) (by decide) (by decide)
      (by norm_num [pause_threshold])⟩

end Abandon

/-! ## Orchestrator (`playlist_tracking.py`) -/

namespace Tracker

open Incr Abandon

/-- `PlaylistSessionTracker._states`, a dict modelled as an association
list. -/
abbrev StateMap := List (String × SessionState)

/-- `self._states.get(discord_id)`. -/
def lookupState (m : StateMap) (discord_id : String) : Option SessionState :=
  (List.find? (fun p => p.1 = discord_id) m).map Prod.snd

/-- `self._states[discord_id] = new_state`. -/
def setState (m : StateMap) (discord_id : String) (st : SessionState) : StateMap :=
  if List.any m (fun p => p.1 = discord_id) then
    List.map (fun p => if p.1 = discord_id then (discord_id, st) else p) m
  else m ++ [(discord_id, st)]

/-- `self._states.pop(discord_id, None)`. -/
def eraseState (m : StateMap) (discord_id : String) : StateMap :=
  List.filter (fun p => p.1 ≠ discord_id) m

/-- The keys of `_states`. -/
def keysOf (m : StateMap) : List String := List.map Prod.fst m

/-- One per-user increment resolution as seen from the orchestrator: the
`link_map` lookup plus `process_increment`, either of which may raise.  In
the real pipeline this is
`fun d jf i s st => .ok (process_increment db d jf i s now st).1`;
the `Except` layer models a raised exception. -/
def ProcInc : Type :=
  String → String → String → ℕ → Option SessionState → Except String (Option SessionState)

/-- `PlaylistSessionTracker.process_buffer_deltas`: the whole per-user loop
runs inside one `try`, so the first raised exception ends the batch (it is
logged, not propagated — the result is still a state map), leaving the
states as they were at that point. -/
def process_buffer_deltas (link_map : String → Option (String × String)) (proc : ProcInc)
    (states : StateMap) : List (String × String × ℕ) → StateMap
  | [] => states
  | (jf_user_id, item_id, secs) :: rest =>
    match link_map jf_user_id with
    | none => process_buffer_deltas link_map proc states rest
    | some info =>
      let discord_id := info.1
      match proc discord_id jf_user_id item_id secs (lookupState states discord_id) with
      | .error _ => states
      | .ok new_state =>
        let states' :=
          match new_state with
          | some st => setState states discord_id st
          | none => eraseState states discord_id
        process_buffer_deltas link_map proc states' rest

/-- The abandoned-users loop of
`PlaylistSessionTracker.check_for_abandoned_sessions`: each abandoned user
with a live state is handed to `handle_session_abandonment`, and the state
is popped only when that reports the abandonment as processed. -/
def process_abandoned_user (db : VaultDB)
    (acc : StateMap × AbandonState × List Action) (discord_id : String) :
    StateMap × AbandonState × List Action :=
  match lookupState acc.1 discord_id with
  | some st =>
    let r := handle_session_abandonment db acc.2.1 discord_id st
    (if r.1 then eraseState acc.1 discord_id else acc.1, r.2.1, acc.2.2 ++ r.2.2)
  | none => acc

/-- `PlaylistSessionTracker.check_for_abandoned_sessions`: run the
tracker-level check over the currently tracked users, then process each
abandoned user. -/
def check_for_abandoned_sessions (db : VaultDB) (states : StateMap) (ab : AbandonState)
    (current_streaming_discord_ids : List String) (now : ℚ) :
    StateMap × AbandonState × List AbandonEvent × List Action :=
  let currently_tracked := keysOf states
  let r := Abandon.check_for_abandoned_sessions ab current_streaming_discord_ids
    currently_tracked now
  let r2 := r.2.1.foldl (process_abandoned_user db) (states, r.1, [])
  (r2.1, r2.2.1, r.2.2, r2.2.2)

end Tracker

/-! ## Claims about session abandonment at the orchestrator -/

namespace Abandon

/-- An absent tracked user whose incremented absence count is at or past
the abandonment threshold is marked abandoned by the absent loop. -/
theorem absent_fold_abandoned_mem (now : ℚ) (L : List String) :
    ∀ (acc : AbandonState × List String × List AbandonEvent) (id : String),
      L.Nodup → id ∈ L →
      abandonment_threshold ≤ (acc.1.user_absence_count id).getD 0 + 1 →
      id ∈ (L.foldl (absent_step now) acc).2.1 := by
  induction L with
  | nil => intro acc id _ hid; cases hid
  | cons j rest ih =>
    intro acc id hnd hid hcnt
    rw [List.nodup_cons] at hnd
    rw [List.foldl_cons]
    by_cases hj : id = j
    · subst hj
      have h1 : ¬((acc.1.user_absence_count id).getD 0 + 1 = 1) := by
        simp only [abandonment_threshold] at hcnt
        omega
      have h20 : ¬((acc.1.user_absence_count id).getD 0 + 1 = pause_threshold) := by
        simp only [abandonment_threshold] at hcnt
        simp only [pause_threshold]
        omega
      have h60 : ¬((acc.1.user_absence_count id).getD 0 + 1 = waiting_threshold) := by
        simp only [abandonment_threshold] at hcnt
        simp only [waiting_threshold]
        omega
      apply absent_fold_abandoned_mono
      simp only [absent_step]
      simp only [if_neg h1]
      rw [if_neg (fun hc => absurd hc.1 h20)]
      rw [if_neg (fun hc => absurd hc.1 h60)]
      rw [if_pos hcnt]
      exact List.mem_append_right _ (List.mem_singleton.mpr rfl)
    · have hview := absent_step_view_other now acc j hj
      have hix : id ∈ rest := by
        rcases List.mem_cons.mp hid with h | h
        · exact absurd h hj
        · exact h
      apply ih (absent_step now acc j) id hnd.2 hix
      rw [show (absent_step now acc j).1.user_absence_count id
        = (viewOf (absent_step now acc j).1 id).cnt from rfl, hview]
      exact hcnt

end Abandon

namespace Tracker

open Incr Abandon

theorem lookup_erase_same (m : StateMap) (id : String) :
    lookupState (eraseState m id) id = none := by
  induction m with
  | nil => rfl
  | cons p rest ih =>
    rw [eraseState, List.filter_cons]
    by_cases h : p.1 = id
    · rw [if_neg (by simp [h])]
      exact ih
    · rw [if_pos (by simp [h])]
      rw [lookupState, List.find?_cons_of_neg _ (by simp [h])]
      exact ih

theorem lookup_erase_other (m : StateMap) (j : String) {id : String} (h : id ≠ j) :
    lookupState (eraseState m j) id = lookupState m id := by
  induction m with
  | nil => rfl
  | cons p rest ih =>
    rw [eraseState, List.filter_cons]
    by_cases hp : p.1 = j
    · have hpid : ¬(p.1 = id) := fun he => h (he ▸ hp)
      rw [if_neg (by simp [hp])]
      rw [show List.filter (fun q => decide (q.1 ≠ j)) rest = eraseState rest j from rfl, ih]
      rw [show lookupState (p :: rest) id
        = (List.find? (fun q => q.1 = id) rest).map Prod.snd from by
          simp only [lookupState]
          rw [List.find?_cons_of_neg _ (by simp [hpid])]]
      rfl
    · rw [if_pos (by simp [hp])]
      by_cases hpe : p.1 = id
      · simp only [lookupState]
        rw [List.find?_cons_of_pos _ (by simp [hpe]),
          List.find?_cons_of_pos _ (by simp [hpe])]
      · simp only [lookupState]
        rw [List.find?_cons_of_neg _ (by simp [hpe]),
          List.find?_cons_of_neg _ (by simp [hpe])]
        exact ih

/-- A confirmed session's abandonment is always reported as processed. -/
theorem handle_confirmed_processed (db : VaultDB) (ab : AbandonState) (id : String)
    (st : Incr.SessionState) (h : st.is_confirmed = true) :
    (handle_session_abandonment db ab id st).1 = true := by
  simp only [handle_session_abandonment]
  rw [if_neg (by simp [h])]
  cases ab.session_snapshots id <;> rfl

theorem fold_abandoned_none (db : VaultDB) (L : List String) :
    ∀ (acc : StateMap × AbandonState × List Incr.Action) (id : String),
      lookupState acc.1 id = none →
      lookupState ((L.foldl (process_abandoned_user db) acc)).1 id = none := by
  induction L with
  | nil => intro acc id h; exact h
  | cons j rest ih =>
    intro acc id h
    rw [List.foldl_cons]
    apply ih
    simp only [process_abandoned_user]
    by_cases hj : j = id
    · subst hj
      rw [h]
      exact h
    · cases hlj : lookupState acc.1 j with
      | none => exact h
      | some stj =>
        simp only
        split
        · rw [lookup_erase_other _ _ (fun he => hj he.symm)]
          exact h
        · exact h

theorem fold_abandoned_erases (db : VaultDB) (L : List String) :
    ∀ (acc : StateMap × AbandonState × List Incr.Action) (id : String)
      (st : Incr.SessionState), id ∈ L →
      lookupState acc.1 id = some st → st.is_confirmed = true →
      lookupState ((L.foldl (process_abandoned_user db) acc)).1 id = none := by
  induction L with
  | nil => intro acc id st hid; cases hid
  | cons j rest ih =>
    intro acc id st hid hst hconf
    rw [List.foldl_cons]
    by_cases hj : id = j
    · subst hj
      apply fold_abandoned_none
      simp only [process_abandoned_user, hst]
      rw [if_pos (handle_confirmed_processed db _ id st hconf)]
      exact lookup_erase_same _ id
    · have hix : id ∈ rest := by
        rcases List.mem_cons.mp hid with h | h
        · exact absurd h hj
        · exact h
      refine ih _ id st hix ?_ hconf
      simp only [process_abandoned_user]
      cases hlj : lookupState acc.1 j with
      | none => exact hst
      | some stj =>
        simp only
        split
        · rw [lookup_erase_other _ _ hj]
          exact hst
        · exact hst

theorem tracker_check_states (db : VaultDB) (states : StateMap) (ab : AbandonState)
    (S : List String) (now : ℚ) :
    (check_for_abandoned_sessions db states ab S now).1
      = ((Abandon.check_for_abandoned_sessions ab S (keysOf states) now).2.1.foldl
          (process_abandoned_user db)
          (states, (Abandon.check_for_abandoned_sessions ab S (keysOf states) now).1, [])).1
      := rfl

/-- C4 (amended): when a *confirmed* tracked user's absence count reaches
the abandonment threshold of 240 check passes, the orchestrator removes
that user's `SessionState` from its per-user state map in the same pass.
(The unconfirmed case — where the state is *not* removed — is the
counterexample to the claim as stated.) -/
theorem c4_confirmed_abandonment_removes_state (db : VaultDB) (states : StateMap)
    (ab : AbandonState) (streaming : List String) (now : ℚ) (id : String)
    (st : Incr.SessionState) (c : ℕ)
    (hnd : (keysOf states).Nodup)
    (hlook : lookupState states id = some st)
    (hconf : st.is_confirmed = true)
    (habs : id ∉ streaming)
    (hcnt : ab.user_absence_count id = some c)
    (hc : abandonment_threshold ≤ c + 1) :
    lookupState (check_for_abandoned_sessions db states ab streaming now).1 id = none := by
  have hidT : id ∈ keysOf states := by
    rw [lookupState] at hlook
    cases hfind : List.find? (fun p => p.1 = id) states with
    | none => rw [hfind] at hlook; cases hlook
    | some p =>
      have hp1 : p.1 = id := by
        have := List.find?_some hfind
        simpa using this
      have hpm := List.mem_of_find?_eq_some hfind
      rw [keysOf, ← hp1]
      exact List.mem_map_of_mem Prod.fst hpm
  have hcnt1 : (List.foldl (streaming_step now) (ab, []) streaming).1.user_absence_count id
      = some c := by
    rw [show (List.foldl (streaming_step now) (ab, []) streaming).1.user_absence_count id
      = (viewOf (List.foldl (streaming_step now) (ab, []) streaming).1 id).cnt from rfl,
      streaming_fold_view now streaming (ab, []) id habs]
    exact hcnt
  have hmem : id ∈ (Abandon.check_for_abandoned_sessions ab streaming (keysOf states) now).2.1
      := by
    rw [check_abandoned]
    apply absent_fold_abandoned_mem now _ _ id (hnd.filter _)
      (List.mem_filter.mpr ⟨hidT, by simp [habs]⟩)
    rw [hcnt1]
    simpa using hc
  rw [tracker_check_states]
  exact fold_abandoned_erases db _ _ id st hmem hlook hconf

/-- Unconfirmed session used by the C4 counterexample. -/
def c4DemoState : Incr.SessionState :=
  { session_id := none
    user_playlist_id := 1
    jf_playlist_id := some "jf1"
    current_index := 0
    is_confirmed := false
    current_item_id := "a"
    seconds_accum := 12
    playlist_length := none
    playlist_total_runtime := 900
    second_expected := some "b"
    jellyfin_user_id := "jfu"
    track_started_at := some 0 }

def c4DemoStates : StateMap := [("u", c4DemoState)]

def c4DemoSnap : SessionSnapshot :=
  { discord_id := "u", jellyfin_user_id := "jfu", user_playlist_id := 1,
    playlist_name := "P", current_index := 0, current_item_id := "a",
    current_item_title := some "A", seconds_accum := 12, session_id := none,
    last_seen := 0 }

/-- User `"u"` one pass away from the abandonment threshold. -/
def c4DemoAb : AbandonState :=
  { user_absence_count := fun x => if x = "u" then some 239 else none
    user_pause_time := fun x => if x = "u" then some 0 else none
    user_notified_paused := fun x => x = "u"
    user_notified_waiting := fun x => x = "u"
    session_snapshots := fun x => if x = "u" then some c4DemoSnap else none }

def c4DemoDB : VaultDB :=
  { playlists := [(1, ["a", "b", "c"])]
    runtime := fun _ => 300
    jf_playlist := fun _ => some "jf1"
    upsert_sid := 7
    total_runtime := fun _ => 900 }

/-- C4 counterexample: the abandonment tracker marks the unconfirmed user
`"u"` abandoned at absence count 240, but the orchestrator does *not*
remove the `SessionState` — `handle_session_abandonment` declines
unconfirmed sessions, so the state survives the pass. -/
theorem c4_counterexample :
    (Abandon.check_for_abandoned_sessions c4DemoAb [] ["u"] 5).2.1 = ["u"] ∧
    lookupState (check_for_abandoned_sessions c4DemoDB c4DemoStates c4DemoAb [] 5).1 "u"
      = some c4DemoState := by
  decide

/-- Confirmed session for the C4 witness. -/
def c4DemoConfState : Incr.SessionState :=
  { c4DemoState with is_confirmed := true, session_id := some 5 }

def c4DemoConfStates : StateMap := [("u", c4DemoConfState)]

/-- Witness for the amended C4: the confirmed user's state is removed in
the pass where the absence count reaches 240. -/
theorem c4_confirmed_abandonment_removes_state_witness :
    ((keysOf c4DemoConfStates).Nodup ∧
      lookupState c4DemoConfStates "u" = some c4DemoConfState ∧
      c4DemoConfState.is_confirmed = true ∧
      ("u" : String) ∉ ([] : List String) ∧
      c4DemoAb.user_absence_count "u" = some 239 ∧
      abandonment_threshold ≤ 239 + 1) ∧
    lookupState (check_for_abandoned_sessions c4DemoDB c4DemoConfStates c4DemoAb [] 5).1 "u"
      = none :=
  ⟨⟨by decide, by decide, by decide, by decide, by decide, by decide⟩,
    c4_confirmed_abandonment_removes_state c4DemoDB c4DemoConfStates c4DemoAb [] 5 "u"
      c4DemoConfState 239 (by decide) (by decide) (by decide) (by decide) (by decide)
      (by decide)⟩

end Tracker

/-! ## Claims about the orchestrator's error handling -/

namespace Tracker

open Incr

/-- Session state used by the C3 scenario. -/
def c3DemoState : SessionState :=
  { session_id := some 5
    user_playlist_id := 1
    jf_playlist_id := some "jf1"
    current_index := 0
    is_confirmed := true
    current_item_id := "i"
    seconds_accum := 0
    playlist_length := some 4
    playlist_total_runtime := 1200
    second_expected := none
    jellyfin_user_id := "jfu"
    track_started_at := none }

/-- Identity-like link map: every external user resolves. -/
def c3DemoLink : String → Option (String × String) := fun jf => some (jf, jf)

/-- A per-user resolution that raises for user `"A"` and tracks everyone
else. -/
def c3DemoProc : ProcInc := fun discord_id _ _ secs _ =>
  if discord_id = "A" then .error "boom"
  else .ok (some { c3DemoState with seconds_accum := (secs : ℚ) })

/-- C3 counterexample: in the batch `[A, B]` where processing `A` raises,
`B`'s delta is *not* processed (no state for `B` afterwards), although the
same delta alone would have been — the `try` of `process_buffer_deltas`
wraps the whole loop, so one user's failure aborts the rest of the batch. -/
theorem c3_counterexample :
    lookupState (process_buffer_deltas c3DemoLink c3DemoProc []
      [("A", "i", 1), ("B", "i", 2)]) "B" = none ∧
    lookupState (process_buffer_deltas c3DemoLink c3DemoProc []
      [("B", "i", 2)]) "B" = some { c3DemoState with seconds_accum := 2 } := by
  decide

/-- C3 (amended): a raised exception while processing one user's increment
does not propagate out of `process_buffer_deltas` and leaves every state —
including the failing user's — exactly as it was at that point, but it
ends the batch: the failing delta and all deltas after it are dropped for
this tick. -/
theorem c3_batch_abort (link_map : String → Option (String × String)) (proc : ProcInc)
    (states : StateMap) (pref suf : List (String × String × ℕ))
    (jf_user_id item_id : String) (secs : ℕ) (info : String × String)
    (hlink : link_map jf_user_id = some info)
    (herr : ∃ e, proc info.1 jf_user_id item_id secs
      (lookupState (process_buffer_deltas link_map proc states pref) info.1) = .error e) :
    process_buffer_deltas link_map proc states (pref ++ (jf_user_id, item_id, secs) :: suf)
      = process_buffer_deltas link_map proc states pref := by
  revert herr
  induction pref generalizing states with
  | nil =>
    intro herr
    obtain ⟨e, he⟩ := herr
    simp only [process_buffer_deltas] at he
    simp only [List.nil_append, process_buffer_deltas, hlink, he]
  | cons d pref ih =>
    intro herr
    obtain ⟨jf2, item2, secs2⟩ := d
    simp only [List.cons_append, process_buffer_deltas]
    cases hl2 : link_map jf2 with
    | none =>
      apply ih
      simpa only [process_buffer_deltas, hl2] using herr
    | some info2 =>
      dsimp only
      cases hp2 : proc info2.1 jf2 item2 secs2 (lookupState states info2.1) with
      | error e2 => simp only [hp2]
      | ok ns =>
        simp only [hp2]
        apply ih
        simpa only [process_buffer_deltas, hl2, hp2] using herr

/-- Witness for the amended C3: batch `[B, A, B]` with `A` raising; the
result equals processing the prefix `[B]` alone. -/
theorem c3_batch_abort_witness :
    (c3DemoLink "A" = some ("A", "A") ∧
      c3DemoProc ("A", "A").1 "A" "i" 1
        (lookupState (process_buffer_deltas c3DemoLink c3DemoProc [] [("B", "i", 2)])
          ("A", "A").1) = .error "boom") ∧
    process_buffer_deltas c3DemoLink c3DemoProc []
        ([("B", "i", 2)] ++ ("A", "i", 1) :: [("B", "i", 3)])
      = process_buffer_deltas c3DemoLink c3DemoProc [] [("B", "i", 2)] :=
  ⟨⟨by decide, by rfl⟩,
    c3_batch_abort c3DemoLink c3DemoProc [] [("B", "i", 2)] [("B", "i", 3)]
      "A" "i" 1 ("A", "A") (by decide) ⟨"boom", by rfl⟩⟩

end Tracker

/-! ## Claims about the tick buffer -/

namespace Buffer

theorem safe_delta_nonneg (c p m : ℤ) : 0 ≤ safe_delta c p m := by
  simp only [safe_delta]
  split
  · next h => exact h.1
  · exact le_refl 0

theorem safe_delta_in_band {c p m : ℤ} (h1 : 0 ≤ c - p) (h2 : c - p ≤ m) :
    safe_delta c p m = c - p := by
  simp [safe_delta, h1, h2]

theorem safe_delta_neg {c p m : ℤ} (h : c - p < 0) : safe_delta c p m = 0 := by
  unfold safe_delta
  rw [if_neg]
  intro hc
  exact absurd hc.1 (not_le.mpr h)

/-- C8: For every (user, item) pair with a last known position `L`, an
update whose new absolute position `T` falls more than the backward-jump
threshold (`MAX_JUMP_BACK`) below `L` is treated as a restart: the
reference position is reset to `0` and the credited delta is the new
position itself passed through the safety band (hence never negative, and
exactly `T` whenever `T` lies inside the band); a backward move within the
threshold credits nothing rather than a negative amount. -/
theorem c8_restart_detection (env : RuntimeEnv) (s : BufferState) (u i : String)
    (L : ℤ) (ts : ℚ) (T : ℤ) (now : ℚ) (hour : ℕ)
    (hu : u ≠ "") (hi : i ≠ "")
    (hcur : s.current_track u = some i)
    (hlast : s.last_known_tick (u, i) = some ⟨L, ts⟩) :
    (T < L - MAX_JUMP_BACK →
      detect_restart T L = 0 ∧
      (update env s u i T now hour).buffer (u, i, hour)
        = s.buffer (u, i, hour) + safe_delta T 0 MAX_ALLOWED_DELTA ∧
      0 ≤ safe_delta T 0 MAX_ALLOWED_DELTA ∧
      (0 ≤ T → T ≤ MAX_ALLOWED_DELTA → safe_delta T 0 MAX_ALLOWED_DELTA = T)) ∧
    (L - MAX_JUMP_BACK ≤ T → T ≤ L →
      (update env s u i T now hour).buffer (u, i, hour) = s.buffer (u, i, hour)) := by
  have hbody : update env s u i T now hour
      = handle_subsequent { s with current_track := updFn s.current_track u (some i) }
          (u, i) (u, i, hour) T now := by
    simp only [update, hu, hi, or_self, if_false, hcur, ne_eq, not_true_eq_false,
      and_false, if_neg, ite_false]
    simp [hlast]
  constructor
  · intro hrestart
    have hdr : detect_restart T L = 0 := by simp [detect_restart, hrestart]
    refine ⟨hdr, ?_, safe_delta_nonneg T 0 MAX_ALLOWED_DELTA, ?_⟩
    · rw [hbody]
      simp only [handle_subsequent, hlast, hdr]
      by_cases hD0 : safe_delta T 0 MAX_ALLOWED_DELTA ≤ 0
      · have hD : safe_delta T 0 MAX_ALLOWED_DELTA = 0 :=
          le_antisymm hD0 (safe_delta_nonneg T 0 MAX_ALLOWED_DELTA)
        rw [if_pos hD0, hD, add_zero]
      · rw [if_neg hD0]
        simp
    · intro h1 h2
      have := safe_delta_in_band (c := T) (p := 0) (m := MAX_ALLOWED_DELTA)
        (by simpa using h1) (by simpa using h2)
      simpa using this
  · intro hge hle
    have hdr : detect_restart T L = L := by
      simp only [detect_restart, if_neg (not_lt.mpr hge)]
    rw [hbody]
    simp only [handle_subsequent, hlast, hdr]
    by_cases hTL : T = L
    · subst hTL
      have hD : safe_delta T T MAX_ALLOWED_DELTA = 0 := by
        have := safe_delta_in_band (c := T) (p := T) (m := MAX_ALLOWED_DELTA)
          (by simp) (by simp [MAX_ALLOWED_DELTA])
        simpa using this
      rw [if_pos (by rw [hD])]
    · have hlt : T - L < 0 := by
        have := lt_of_le_of_ne hle hTL
        omega
      have hD : safe_delta T L MAX_ALLOWED_DELTA = 0 := safe_delta_neg hlt
      rw [if_pos (by rw [hD])]

/-- Concrete buffer state for instantiating the restart claim: the user
`"u"` is playing `"i"` with last known position 100 s of ticks. -/
def c8DemoState : BufferState :=
  { buffer := fun _ => 0
    tick_tracker := fun _ => none
    last_known_tick := fun k => if k = ("u", "i") then some ⟨1000000000, 0⟩ else none
    current_track := fun u => if u = "u" then some "i" else none
    consumed_ticks := fun _ => none }

def c8DemoEnv : RuntimeEnv := ⟨fun _ => 300 * TICKS_PER_SECOND⟩

/-- Witness for C8 at the concrete state: a drop from 100 s to 50 s of
ticks is a restart credited with the full new position. -/
theorem c8_restart_detection_witness :
    (("u" : String) ≠ "" ∧ ("i" : String) ≠ "" ∧
      c8DemoState.current_track "u" = some "i" ∧
      c8DemoState.last_known_tick ("u", "i") = some ⟨1000000000, 0⟩) ∧
    (((500000000 : ℤ) < 1000000000 - MAX_JUMP_BACK →
      detect_restart 500000000 1000000000 = 0 ∧
      (update c8DemoEnv c8DemoState "u" "i" 500000000 3 0).buffer ("u", "i", 0)
        = c8DemoState.buffer ("u", "i", 0) + safe_delta 500000000 0 MAX_ALLOWED_DELTA ∧
      0 ≤ safe_delta 500000000 0 MAX_ALLOWED_DELTA ∧
      ((0 : ℤ) ≤ 500000000 → (500000000 : ℤ) ≤ MAX_ALLOWED_DELTA →
        safe_delta 500000000 0 MAX_ALLOWED_DELTA = 500000000)) ∧
    ((1000000000 : ℤ) - MAX_JUMP_BACK ≤ 500000000 → (500000000 : ℤ) ≤ 1000000000 →
      (update c8DemoEnv c8DemoState "u" "i" 500000000 3 0).buffer ("u", "i", 0)
        = c8DemoState.buffer ("u", "i", 0))) :=
  ⟨⟨by decide, by decide, by decide, by decide⟩,
    c8_restart_detection c8DemoEnv c8DemoState "u" "i" 1000000000 0 500000000 3 0
      (by decide) (by decide) (by decide) (by decide)⟩

/-- The ticks already surfaced for a key (`_consumed_ticks.get(key, 0)`). -/
def consdOf (s : BufferState) (k : BufKey) : ℤ := (s.consumed_ticks k).getD 0

theorem consumeKeyResult_nonneg (s : BufferState) (k : BufKey) :
    0 ≤ consumeKeyResult s k := by
  simp only [consumeKeyResult]
  split
  · split
    · split
      · next h => exact le_of_lt h
      · exact le_refl 0
    · exact le_refl 0
  · exact le_refl 0

theorem consumeKeyResult_pos_facts (s : BufferState) (k : BufKey)
    (h : 0 < consumeKeyResult s k) :
    0 < s.buffer k - consdOf s k ∧
      consumeKeyResult s k * TICKS_PER_SECOND ≤ s.buffer k - consdOf s k := by
  revert h
  simp only [consumeKeyResult, consdOf]
  split
  · split
    · next hnew =>
      split
      · next hpos =>
        intro _
        refine ⟨hnew, ?_⟩
        have heq : pydiv (s.buffer k - (s.consumed_ticks k).getD 0) TICKS_PER_SECOND
            = (s.buffer k - (s.consumed_ticks k).getD 0) / TICKS_PER_SECOND := by
          simp only [pydiv]
          exact Int.fdiv_eq_ediv _ (by norm_num [TICKS_PER_SECOND])
        rw [heq]
        exact Int.ediv_mul_le _ (by norm_num [TICKS_PER_SECOND])
      · intro h; exact absurd h (lt_irrefl 0)
    · intro h; exact absurd h (lt_irrefl 0)
  · intro h; exact absurd h (lt_irrefl 0)

/-- A second consumption with nothing in between surfaces nothing. -/
theorem consume_consume_zero (s : BufferState) (k : BufKey) :
    consumeKeyResult (consume_recent_deltas s).2 k = 0 := by
  have hbuf : ((consume_recent_deltas s).2).buffer = s.buffer := rfl
  have hcur : ((consume_recent_deltas s).2).current_track = s.current_track := rfl
  by_cases hc : s.current_track k.1 = some k.2.1
  · by_cases hr : 0 < consumeKeyResult s k
    · have hcons : ((consume_recent_deltas s).2).consumed_ticks k = some (s.buffer k) := by
        simp only [consume_recent_deltas, if_pos hr]
      rw [consumeKeyResult, hcur, hcons, hbuf]
      simp [hc]
    · have hcons : ((consume_recent_deltas s).2).consumed_ticks k = s.consumed_ticks k := by
        simp only [consume_recent_deltas, if_neg hr]
      have heq : consumeKeyResult (consume_recent_deltas s).2 k = consumeKeyResult s k := by
        rw [consumeKeyResult, consumeKeyResult, hcur, hcons, hbuf]
      rw [heq]
      exact le_antisymm (not_lt.mp hr) (consumeKeyResult_nonneg s k)
  · simp [consumeKeyResult, hcur, hc]

/-- C10: a buffered entry whose unconsumed ticks are less than one whole
second yields nothing and leaves the watermark unchanged (so the ticks can
be surfaced later); whenever a positive number of seconds is returned for
an entry, the watermark advances to the entire buffered total, marking any
sub-second remainder consumed without surfacing it; and once a whole
second has accrued unconsumed, the call does surface at least one second. -/
theorem c10_subsecond_watermark (s : BufferState) (k : BufKey)
    (hcur : s.current_track k.1 = some k.2.1) :
    (0 < s.buffer k - consdOf s k →
      pydiv (s.buffer k - consdOf s k) TICKS_PER_SECOND = 0 →
      consumeKeyResult s k = 0 ∧
        (consume_recent_deltas s).2.consumed_ticks k = s.consumed_ticks k) ∧
    (0 < consumeKeyResult s k →
      (consume_recent_deltas s).2.consumed_ticks k = some (s.buffer k)) ∧
    (TICKS_PER_SECOND ≤ s.buffer k - consdOf s k → 1 ≤ consumeKeyResult s k) := by
  refine ⟨?_, ?_, ?_⟩
  · intro hnew hdiv
    have hres : consumeKeyResult s k = 0 := by
      simp only [consumeKeyResult, consdOf] at *
      rw [if_pos hcur]
      simp only [hnew, if_pos]
      rw [hdiv]
      simp
    refine ⟨hres, ?_⟩
    simp only [consume_recent_deltas, hres]
    simp
  · intro hpos
    simp only [consume_recent_deltas, if_pos hpos]
  · intro hsec
    have hnew : 0 < s.buffer k - consdOf s k :=
      lt_of_lt_of_le (by norm_num [TICKS_PER_SECOND]) hsec
    have hdiv : 1 ≤ pydiv (s.buffer k - consdOf s k) TICKS_PER_SECOND := by
      have heq : pydiv (s.buffer k - consdOf s k) TICKS_PER_SECOND
          = (s.buffer k - consdOf s k) / TICKS_PER_SECOND := by
        simp only [pydiv]
        exact Int.fdiv_eq_ediv _ (by norm_num [TICKS_PER_SECOND])
      rw [heq]
      rw [Int.le_ediv_iff_mul_le (by norm_num [TICKS_PER_SECOND])]
      simpa using hsec
    simp only [consumeKeyResult, consdOf] at *
    rw [if_pos hcur]
    simp only [hnew, if_pos]
    rw [if_pos (lt_of_lt_of_le one_pos hdiv)]
    exact hdiv

/-- Concrete buffer state for the C10 witness: 1.5 s of unconsumed ticks. -/
def c10DemoState : BufferState :=
  { buffer := fun k => if k = ("u", "i", 0) then 15000000 else 0
    tick_tracker := fun _ => none
    last_known_tick := fun _ => none
    current_track := fun u => if u = "u" then some "i" else none
    consumed_ticks := fun _ => none }

/-- Witness for C10 at a concrete entry. -/
theorem c10_subsecond_watermark_witness :
    (c10DemoState.current_track ("u", "i", 0).1 = some ("u", "i", 0).2.1) ∧
    ((0 < c10DemoState.buffer ("u", "i", 0) - consdOf c10DemoState ("u", "i", 0) →
      pydiv (c10DemoState.buffer ("u", "i", 0) - consdOf c10DemoState ("u", "i", 0))
        TICKS_PER_SECOND = 0 →
      consumeKeyResult c10DemoState ("u", "i", 0) = 0 ∧
        (consume_recent_deltas c10DemoState).2.consumed_ticks ("u", "i", 0)
          = c10DemoState.consumed_ticks ("u", "i", 0)) ∧
    (0 < consumeKeyResult c10DemoState ("u", "i", 0) →
      (consume_recent_deltas c10DemoState).2.consumed_ticks ("u", "i", 0)
        = some (c10DemoState.buffer ("u", "i", 0))) ∧
    (TICKS_PER_SECOND ≤ c10DemoState.buffer ("u", "i", 0) - consdOf c10DemoState ("u", "i", 0) →
      1 ≤ consumeKeyResult c10DemoState ("u", "i", 0))) :=
  ⟨by decide, c10_subsecond_watermark c10DemoState ("u", "i", 0) (by decide)⟩

/-! Trace semantics for the delta-idempotence claim: a run of buffer calls
as the polling loop performs them (`update` per snapshot,
`consume_recent_deltas` per tick, `clear` on flush). -/

inductive BufOp where
  | updateOp (user_id item_id : String) (ticks : ℤ) (now_ts : ℚ) (hour_key : ℕ)
  | consumeOp
  | clearOp (now_ts : ℚ)

/-- A well-formed call reports a nonnegative playback position. -/
def BufOp.wf : BufOp → Prop
  | .updateOp _ _ ticks _ _ => 0 ≤ ticks
  | _ => True

instance : DecidablePred BufOp.wf := fun op => by
  cases op <;> simp only [BufOp.wf] <;> infer_instance

def applyOp (env : RuntimeEnv) (s : BufferState) : BufOp → BufferState
  | .updateOp u i t n h => update env s u i t n h
  | .consumeOp => (consume_recent_deltas s).2
  | .clearOp n => clear s n

/-- Total seconds surfaced for key `k` by the consume calls of a run. -/
def runReturned (env : RuntimeEnv) (s : BufferState) (k : BufKey) : List BufOp → ℤ
  | [] => 0
  | op :: rest =>
    (match op with
     | .consumeOp => consumeKeyResult s k
     | _ => 0) + runReturned env (applyOp env s op) k rest

/-- Total ticks entering the buffer at key `k` during a run. -/
def runAdded (env : RuntimeEnv) (s : BufferState) (k : BufKey) : List BufOp → ℤ
  | [] => 0
  | op :: rest =>
    (match op with
     | .updateOp u i t n h => (update env s u i t n h).buffer k - s.buffer k
     | _ => 0) + runAdded env (applyOp env s op) k rest

theorem le_updFn_add {f : BufKey → ℤ} {a : BufKey} {g : ℤ} (hg : 0 ≤ g) (k : BufKey) :
    f k ≤ updFn f a (f a + g) k := by
  by_cases h : k = a
  · subst h; simp; linarith
  · rw [updFn_other _ _ _ h]

theorem finalize_buffer_le (env : RuntimeEnv) (s : BufferState) (u oi : String) (h : ℕ)
    (k : BufKey) : s.buffer k ≤ (finalize_track_on_change env s u oi h).buffer k := by
  simp only [finalize_track_on_change]
  cases hl : s.last_known_tick (u, oi) with
  | none => exact le_refl _
  | some last =>
    simp only
    split
    · next hgap => exact le_updFn_add (le_of_lt hgap) k
    · exact le_refl _

theorem handle_initial_buffer_le (s : BufferState) (uik : UserItemKey) (tk : BufKey)
    (ticks : ℤ) (n : ℚ) (ht : 0 ≤ ticks) (k : BufKey) :
    s.buffer k ≤ (handle_initial s uik tk ticks n).buffer k := by
  simp only [handle_initial]
  split
  · exact le_updFn_add ht k
  · exact le_refl _

theorem handle_subsequent_buffer_le (s : BufferState) (uik : UserItemKey) (tk : BufKey)
    (ticks : ℤ) (n : ℚ) (k : BufKey) :
    s.buffer k ≤ (handle_subsequent s uik tk ticks n).buffer k := by
  simp only [handle_subsequent]
  cases hl : s.last_known_tick uik with
  | none => exact le_refl _
  | some last =>
    simp only
    split
    · exact le_refl _
    · next hd => exact le_updFn_add (le_of_lt (lt_of_not_le hd)) k

theorem update_buffer_le (env : RuntimeEnv) (s : BufferState) (u i : String) (t : ℤ)
    (n : ℚ) (h : ℕ) (ht : 0 ≤ t) (k : BufKey) :
    s.buffer k ≤ (update env s u i t n h).buffer k := by
  simp only [update]
  split
  · exact le_refl _
  · set s1 := match s.current_track u with
      | some old_item_id =>
        if old_item_id ≠ "" ∧ old_item_id ≠ i then
          finalize_track_on_change env s u old_item_id h
        else s
      | none => s with hs1
    have h1 : s.buffer k ≤ s1.buffer k := by
      rw [hs1]
      cases hc : s.current_track u with
      | none => exact le_refl _
      | some old =>
        simp only
        split
        · exact finalize_buffer_le env s u old h k
        · exact le_refl _
    set s2 : BufferState := { s1 with current_track := updFn s1.current_track u (some i) } with hs2
    have h2 : s1.buffer k = s2.buffer k := rfl
    cases hlk : s2.last_known_tick (u, i) with
    | none =>
      refine le_trans h1 ?_
      rw [h2]
      simp only [hlk]
      exact handle_initial_buffer_le s2 (u, i) (u, i, h) t n ht k
    | some last =>
      refine le_trans h1 ?_
      rw [h2]
      simp only [hlk]
      exact handle_subsequent_buffer_le s2 (u, i) (u, i, h) t n k

theorem finalize_consumed_eq (env : RuntimeEnv) (s : BufferState) (u oi : String) (h : ℕ) :
    (finalize_track_on_change env s u oi h).consumed_ticks = s.consumed_ticks := by
  simp only [finalize_track_on_change]
  cases s.last_known_tick (u, oi) with
  | none => rfl
  | some last =>
    simp only
    split <;> rfl

theorem update_consumed_eq (env : RuntimeEnv) (s : BufferState) (u i : String) (t : ℤ)
    (n : ℚ) (h : ℕ) : (update env s u i t n h).consumed_ticks = s.consumed_ticks := by
  simp only [update]
  split
  · rfl
  · set s1 := match s.current_track u with
      | some old_item_id =>
        if old_item_id ≠ "" ∧ old_item_id ≠ i then
          finalize_track_on_change env s u old_item_id h
        else s
      | none => s with hs1
    have h1 : s1.consumed_ticks = s.consumed_ticks := by
      rw [hs1]
      cases s.current_track u with
      | none => rfl
      | some old =>
        simp only
        split
        · exact finalize_consumed_eq env s u old h
        · rfl
    set s2 : BufferState := { s1 with current_track := updFn s1.current_track u (some i) }
    have h2 : s2.consumed_ticks = s1.consumed_ticks := rfl
    cases s2.last_known_tick (u, i) with
    | none =>
      simp only [handle_initial]
      split <;> simp only [h2, h1]
    | some last =>
      simp only [handle_subsequent]
      cases s2.last_known_tick (u, i) with
      | none => simp only [h2, h1]
      | some last2 =>
        simp only
        split <;> simp only [h2, h1]

/-- The per-key accounting invariant of a run: the surfaced seconds are
covered by the unconsumed buffer plus whatever the run still adds. -/
theorem run_bound (env : RuntimeEnv) (k : BufKey) :
    ∀ (ops : List BufOp) (s : BufferState), (∀ op ∈ ops, op.wf) →
      0 ≤ consdOf s k → consdOf s k ≤ s.buffer k →
      runReturned env s k ops * TICKS_PER_SECOND
        ≤ s.buffer k - consdOf s k + runAdded env s k ops := by
  intro ops
  induction ops with
  | nil =>
    intro s _ h0 h1
    simp only [runReturned, runAdded, zero_mul, add_zero]
    linarith
  | cons op rest ih =>
    intro s hwf h0 h1
    have hwfop : op.wf := hwf op (List.mem_cons_self op rest)
    have hwfrest : ∀ o ∈ rest, o.wf := fun o ho => hwf o (List.mem_cons_of_mem op ho)
    cases op with
    | updateOp u i t n h =>
      have ht : 0 ≤ t := hwfop
      have hmono := update_buffer_le env s u i t n h ht k
      have hcons : consdOf (update env s u i t n h) k = consdOf s k := by
        simp only [consdOf, update_consumed_eq]
      have := ih (update env s u i t n h) hwfrest (by rw [hcons]; exact h0)
        (by rw [hcons]; exact le_trans h1 hmono)
      simp only [runReturned, runAdded, applyOp]
      rw [zero_add]
      rw [hcons] at this
      linarith
    | consumeOp =>
      set r := consumeKeyResult s k with hr
      have hrnn : 0 ≤ r := consumeKeyResult_nonneg s k
      have hbuf : ((consume_recent_deltas s).2).buffer k = s.buffer k := rfl
      by_cases hrpos : 0 < r
      · obtain ⟨hnew, hmul⟩ := consumeKeyResult_pos_facts s k hrpos
        have hcons : consdOf ((consume_recent_deltas s).2) k = s.buffer k := by
          simp only [consdOf, consume_recent_deltas, ← hr, if_pos hrpos, Option.getD_some]
        have hb0 : 0 ≤ s.buffer k := le_trans h0 h1
        have := ih ((consume_recent_deltas s).2) hwfrest
          (by rw [hcons]; exact hb0) (by rw [hcons, hbuf])
        simp only [runReturned, runAdded, applyOp]
        rw [zero_add, add_mul]
        rw [hcons, hbuf] at this
        simp only [consdOf] at hmul
        simp only [consdOf] at *
        linarith
      · have hr0 : r = 0 := le_antisymm (not_lt.mp hrpos) hrnn
        have hcons : consdOf ((consume_recent_deltas s).2) k = consdOf s k := by
          simp only [consdOf, consume_recent_deltas, ← hr, if_neg hrpos]
        have := ih ((consume_recent_deltas s).2) hwfrest
          (by rw [hcons]; exact h0) (by rw [hcons, hbuf]; exact h1)
        simp only [runReturned, runAdded, applyOp]
        rw [← hr, hr0, zero_add, zero_add]
        rw [hcons, hbuf] at this
        linarith
    | clearOp n =>
      have hcons : consdOf (clear s n) k = 0 := by simp [consdOf, clear]
      have hbuf : (clear s n).buffer k = 0 := rfl
      have := ih (clear s n) hwfrest (by rw [hcons]) (by rw [hcons, hbuf])
      simp only [runReturned, runAdded, applyOp]
      rw [zero_add, zero_add]
      rw [hcons, hbuf] at this
      linarith

/-- C6: along any run of buffer calls with nonnegative reported positions,
the total seconds surfaced for a (user, item) pair — summed over its hour
buckets — never exceed the ticks that entered the buffer for that pair,
converted to whole seconds; and a `consume_recent_deltas` immediately
following another surfaces nothing for any key. -/
theorem c6_delta_idempotence (env : RuntimeEnv) (ops : List BufOp)
    (hwf : ∀ op ∈ ops, op.wf) :
    (∀ (u i : String) (hs : Finset ℕ),
      (hs.sum fun h => runReturned env BufferState.init (u, i, h) ops)
        ≤ pydiv (hs.sum fun h => runAdded env BufferState.init (u, i, h) ops)
            TICKS_PER_SECOND) ∧
    (∀ (s : BufferState) (k : BufKey),
      consumeKeyResult (consume_recent_deltas s).2 k = 0) := by
  constructor
  · intro u i hs
    have hkey : ∀ h : ℕ,
        runReturned env BufferState.init (u, i, h) ops * TICKS_PER_SECOND
          ≤ runAdded env BufferState.init (u, i, h) ops := by
      intro h
      have := run_bound env (u, i, h) ops BufferState.init hwf
        (by simp [consdOf, BufferState.init]) (by simp [consdOf, BufferState.init])
      simpa [BufferState.init, consdOf] using this
    have hsum : (hs.sum fun h => runReturned env BufferState.init (u, i, h) ops)
        * TICKS_PER_SECOND
        ≤ hs.sum fun h => runAdded env BufferState.init (u, i, h) ops := by
      rw [Finset.sum_mul]
      exact Finset.sum_le_sum fun h _ => hkey h
    have heq : pydiv (hs.sum fun h => runAdded env BufferState.init (u, i, h) ops)
        TICKS_PER_SECOND
        = (hs.sum fun h => runAdded env BufferState.init (u, i, h) ops)
            / TICKS_PER_SECOND := by
      simp only [pydiv]
      exact Int.fdiv_eq_ediv _ (by norm_num [TICKS_PER_SECOND])
    rw [heq, Int.le_ediv_iff_mul_le (by norm_num [TICKS_PER_SECOND])]
    exact hsum
  · exact consume_consume_zero

/-- Witness run for C6: seed at 5 s, advance to 20 s, consume twice. -/
def c6DemoOps : List BufOp :=
  [.updateOp "u" "i" 50000000 0 0, .updateOp "u" "i" 200000000 15 0,
   .consumeOp, .consumeOp]

def c6DemoEnv : RuntimeEnv := ⟨fun _ => 3000000000⟩

/-- Witness for C6: on the concrete run the surfaced seconds stay within
the buffered ticks, and the repeated consume surfaces nothing. -/
theorem c6_delta_idempotence_witness :
    (∀ op ∈ c6DemoOps, op.wf) ∧
    ((∀ (u i : String) (hs : Finset ℕ),
      (hs.sum fun h => runReturned c6DemoEnv BufferState.init (u, i, h) c6DemoOps)
        ≤ pydiv (hs.sum fun h => runAdded c6DemoEnv BufferState.init (u, i, h) c6DemoOps)
            TICKS_PER_SECOND) ∧
    (∀ (s : BufferState) (k : BufKey),
      consumeKeyResult (consume_recent_deltas s).2 k = 0)) :=
  ⟨by decide, c6_delta_idempotence c6DemoEnv c6DemoOps (by decide)⟩

end Buffer

/-! ## Claims about the increment processor -/

namespace Incr

theorem any_ite {α : Type} (c : Prop) [Decidable c] (l1 l2 : List α) (f : α → Bool) :
    (if c then l1 else l2).any f = if c then l1.any f else l2.any f :=
  apply_ite (fun l => List.any l f) c l1 l2

/-- What `_process_track_completion` does to the state and which event it
dispatches. -/
theorem process_track_completion_spec (db : VaultDB) (discord_id : String)
    (st : SessionState) (next_idx : ℕ) (item_id : String) (is_completion : Bool) (now : ℚ) :
    (process_track_completion db discord_id st next_idx item_id is_completion now).1.current_index
        = next_idx ∧
    (process_track_completion db discord_id st next_idx item_id is_completion now).1.current_item_id
        = item_id ∧
    (process_track_completion db discord_id st next_idx item_id is_completion now).1.seconds_accum
        = 0 ∧
    ((process_track_completion db discord_id st next_idx item_id is_completion now).2.any
        Action.isTrackAdvance) = is_completion ∧
    ((process_track_completion db discord_id st next_idx item_id is_completion now).2.any
        Action.isTrackJump) = !is_completion := by
  refine ⟨rfl, rfl, rfl, ?_, ?_⟩ <;>
    cases is_completion <;>
      · simp only [process_track_completion, List.any_append, List.any_cons, List.any_nil,
          any_ite, Action.isTrackAdvance, Action.isTrackJump, Bool.or_false, Bool.false_or,
          Bool.or_true, Bool.true_or, ite_self, Bool.not_true, Bool.not_false]
        simp [Action.isTrackAdvance, Action.isTrackJump]

/-- C1: when a confirmed session's observed item changes to the track at
`currentIndex + 1`, the advance threshold is
`max(10 s, 0.67 × previous track runtime)`; an `Advance` event is emitted
if the accumulated seconds meet the threshold, or else if the wall-clock
time since `track_started_at` meets it (the defensive override); only when
both checks fail is a `Jump` event emitted instead — and in every case the
pointer moves to `currentIndex + 1`. -/
theorem c1_advance_vs_jump (db : VaultDB) (st : SessionState)
    (discord_id jellyfin_user_id item_id : String) (secs : ℕ) (now t0 : ℚ)
    (hconf : st.is_confirmed = true)
    (hne : st.current_item_id ≠ item_id)
    (hnext : get_playlist_track_at_index db st.user_playlist_id (st.current_index + 1)
      = some item_id)
    (hitem : item_id ≠ "")
    (hts : st.track_started_at = some t0) :
    (∃ st', (process_increment db discord_id jellyfin_user_id item_id secs now (some st)).1
        = some st' ∧
      st'.current_index = st.current_index + 1 ∧ st'.current_item_id = item_id ∧
      st'.seconds_accum = 0) ∧
    (max 10 (get_track_runtime db st.current_item_id * (67 / 100)) ≤ st.seconds_accum →
      ((process_increment db discord_id jellyfin_user_id item_id secs now (some st)).2.any
          Action.isTrackAdvance) = true ∧
      ((process_increment db discord_id jellyfin_user_id item_id secs now (some st)).2.any
          Action.isTrackJump) = false) ∧
    (st.seconds_accum < max 10 (get_track_runtime db st.current_item_id * (67 / 100)) →
      max 10 (get_track_runtime db st.current_item_id * (67 / 100)) ≤ now - t0 →
      ((process_increment db discord_id jellyfin_user_id item_id secs now (some st)).2.any
          Action.isTrackAdvance) = true ∧
      ((process_increment db discord_id jellyfin_user_id item_id secs now (some st)).2.any
          Action.isTrackJump) = false) ∧
    (st.seconds_accum < max 10 (get_track_runtime db st.current_item_id * (67 / 100)) →
      now - t0 < max 10 (get_track_runtime db st.current_item_id * (67 / 100)) →
      ((process_increment db discord_id jellyfin_user_id item_id secs now (some st)).2.any
          Action.isTrackJump) = true ∧
      ((process_increment db discord_id jellyfin_user_id item_id secs now (some st)).2.any
          Action.isTrackAdvance) = false) := by
  have hmem : item_id ∈ all_playlist_items db st.user_playlist_id :=
    List.get?_mem hnext
  have hroute : process_increment db discord_id jellyfin_user_id item_id secs now (some st)
      = handle_sequential_advance db discord_id item_id now st (st.current_index + 1) := by
    simp only [process_increment, handle_existing_session]
    rw [if_neg (by intro hcontra; exact hcontra.2 hmem)]
    rw [if_neg hne]
    simp only [handle_item_change, hnext]
    rw [if_pos ⟨hitem, trivial⟩]
  have hthr : calculate_advance_threshold db st.current_item_id
      = max 10 (get_track_runtime db st.current_item_id * (67 / 100)) := by
    simp [calculate_advance_threshold, ORDER_ADVANCE_MIN_SECS, ORDER_ADVANCE_PERCENTAGE]
  rw [hroute]
  simp only [handle_sequential_advance, hts, hthr]
  refine ⟨?_, ?_, ?_, ?_⟩
  · by_cases h1 : max 10 (get_track_runtime db st.current_item_id * (67 / 100))
        ≤ st.seconds_accum
    · rw [if_pos h1]
      obtain ⟨ha, hb, hc, _, _⟩ := process_track_completion_spec db discord_id st
        (st.current_index + 1) item_id true now
      exact ⟨_, rfl, ha, hb, hc⟩
    · rw [if_neg h1]
      obtain ⟨ha, hb, hc, _, _⟩ := process_track_completion_spec db discord_id st
        (st.current_index + 1) item_id _ now
      exact ⟨_, rfl, ha, hb, hc⟩
  · intro h1
    rw [if_pos h1]
    obtain ⟨_, _, _, hd, he⟩ := process_track_completion_spec db discord_id st
      (st.current_index + 1) item_id true now
    exact ⟨hd, by simpa using he⟩
  · intro h1 h2
    rw [if_neg (not_le.mpr h1)]
    have : decide (max 10 (get_track_runtime db st.current_item_id * (67 / 100))
        ≤ now - t0) = true := decide_eq_true h2
    rw [this]
    obtain ⟨_, _, _, hd, he⟩ := process_track_completion_spec db discord_id st
      (st.current_index + 1) item_id true now
    exact ⟨hd, by simpa using he⟩
  · intro h1 h2
    rw [if_neg (not_le.mpr h1)]
    have : decide (max 10 (get_track_runtime db st.current_item_id * (67 / 100))
        ≤ now - t0) = false := decide_eq_false (not_le.mpr h2)
    rw [this]
    obtain ⟨_, _, _, hd, he⟩ := process_track_completion_spec db discord_id st
      (st.current_index + 1) item_id false now
    exact ⟨by simpa using he, hd⟩

/-- Concrete database and state for the C1 witness: playlist
`["a","b","c","d"]`, 300 s tracks, session on track 0 with 210 s
accumulated. -/
def c1DemoDB : VaultDB :=
  { playlists := [(1, ["a", "b", "c", "d"])]
    runtime := fun _ => 300
    jf_playlist := fun _ => some "jf1"
    upsert_sid := 7
    total_runtime := fun _ => 1200 }

def c1DemoState : SessionState :=
  { session_id := some 5
    user_playlist_id := 1
    jf_playlist_id := some "jf1"
    current_index := 0
    is_confirmed := true
    current_item_id := "a"
    seconds_accum := 210
    playlist_length := some 4
    playlist_total_runtime := 1200
    second_expected := none
    jellyfin_user_id := "jfu"
    track_started_at := some 0 }

/-- Witness for C1: advancing `"a" → "b"` with 210 s accumulated against a
201 s threshold. -/
theorem c1_advance_vs_jump_witness :
    (c1DemoState.is_confirmed = true ∧
      c1DemoState.current_item_id ≠ "b" ∧
      get_playlist_track_at_index c1DemoDB c1DemoState.user_playlist_id
        (c1DemoState.current_index + 1) = some "b" ∧
      ("b" : String) ≠ "" ∧ c1DemoState.track_started_at = some 0) ∧
    ((∃ st', (process_increment c1DemoDB "d1" "jfu" "b" 15 100 (some c1DemoState)).1
        = some st' ∧
      st'.current_index = c1DemoState.current_index + 1 ∧ st'.current_item_id = "b" ∧
      st'.seconds_accum = 0) ∧
    (max 10 (get_track_runtime c1DemoDB c1DemoState.current_item_id * (67 / 100))
        ≤ c1DemoState.seconds_accum →
      ((process_increment c1DemoDB "d1" "jfu" "b" 15 100 (some c1DemoState)).2.any
          Action.isTrackAdvance) = true ∧
      ((process_increment c1DemoDB "d1" "jfu" "b" 15 100 (some c1DemoState)).2.any
          Action.isTrackJump) = false) ∧
    (c1DemoState.seconds_accum
        < max 10 (get_track_runtime c1DemoDB c1DemoState.current_item_id * (67 / 100)) →
      max 10 (get_track_runtime c1DemoDB c1DemoState.current_item_id * (67 / 100)) ≤ 100 - 0 →
      ((process_increment c1DemoDB "d1" "jfu" "b" 15 100 (some c1DemoState)).2.any
          Action.isTrackAdvance) = true ∧
      ((process_increment c1DemoDB "d1" "jfu" "b" 15 100 (some c1DemoState)).2.any
          Action.isTrackJump) = false) ∧
    (c1DemoState.seconds_accum
        < max 10 (get_track_runtime c1DemoDB c1DemoState.current_item_id * (67 / 100)) →
      100 - 0 < max 10 (get_track_runtime c1DemoDB c1DemoState.current_item_id * (67 / 100)) →
      ((process_increment c1DemoDB "d1" "jfu" "b" 15 100 (some c1DemoState)).2.any
          Action.isTrackJump) = true ∧
      ((process_increment c1DemoDB "d1" "jfu" "b" 15 100 (some c1DemoState)).2.any
          Action.isTrackAdvance) = false)) :=
  ⟨⟨by decide, by decide, by decide, by decide, by decide⟩,
    c1_advance_vs_jump c1DemoDB c1DemoState "d1" "jfu" "b" 15 100 0
      (by decide) (by decide) (by decide) (by decide) (by decide)⟩

/-- C5: on the final track of a confirmed session, an increment on the
same item that brings `seconds_accum` to at least 90% of the track's
runtime triggers playlist completion — the listened time is recorded as
the full runtime, the session row is marked complete, a `Complete` event
is dispatched (immediately or deferred) — and the in-memory state is
destroyed; any accumulated total below 90% leaves the state alive and
dispatches nothing. -/
theorem c5_completion_threshold (db : VaultDB) (st : SessionState)
    (discord_id jellyfin_user_id item_id : String) (secs : ℕ) (now : ℚ) (sid L : ℕ)
    (hconf : st.is_confirmed = true)
    (hsame : st.current_item_id = item_id)
    (hmem : item_id ∈ all_playlist_items db st.user_playlist_id)
    (hlen : st.playlist_length = some L) (hL : L ≠ 0)
    (hfinal : L - 1 ≤ st.current_index)
    (hsid : st.session_id = some sid) (hsid0 : sid ≠ 0) :
    (get_track_runtime db item_id * (90 / 100) ≤ st.seconds_accum + secs →
      (process_increment db discord_id jellyfin_user_id item_id secs now (some st)).1 = none ∧
      Action.recordFileCompletion sid item_id st.current_index (get_track_runtime db item_id)
        ∈ (process_increment db discord_id jellyfin_user_id item_id secs now (some st)).2 ∧
      Action.markSessionComplete sid
        ∈ (process_increment db discord_id jellyfin_user_id item_id secs now (some st)).2 ∧
      ((process_increment db discord_id jellyfin_user_id item_id secs now (some st)).2.any
        Action.isPlaylistComplete) = true) ∧
    (st.seconds_accum + secs < get_track_runtime db item_id * (90 / 100) →
      (process_increment db discord_id jellyfin_user_id item_id secs now (some st)).1
        = some { st with seconds_accum := st.seconds_accum + secs } ∧
      (process_increment db discord_id jellyfin_user_id item_id secs now (some st)).2 = []) := by
  have hroute : process_increment db discord_id jellyfin_user_id item_id secs now (some st)
      = handle_same_item_increment db discord_id st secs := by
    simp only [process_increment, handle_existing_session]
    rw [if_neg (by intro hcontra; exact hcontra.2 hmem)]
    rw [if_pos hsame]
  have hensure : ensure_playlist_length db { st with seconds_accum := st.seconds_accum + secs }
      = { st with seconds_accum := st.seconds_accum + secs } := by
    simp only [ensure_playlist_length, hlen]
    rw [if_neg hL]
  have hthr : calculate_completion_threshold db st.current_item_id
      = get_track_runtime db item_id * (90 / 100) := by
    simp [calculate_completion_threshold, COMPLETION_PERCENTAGE, hsame]
  rw [hroute]
  simp only [handle_same_item_increment]
  rw [hensure]
  simp only [hlen]
  rw [if_pos ⟨hconf, hL, hfinal⟩]
  constructor
  · intro hge
    rw [if_pos (by rw [hthr]; exact hge)]
    simp only [finalize_if_complete, hconf, hsid]
    rw [if_neg (by simp)]
    rw [if_pos ⟨by omega, by rw [hthr]; exact hge⟩]
    rw [if_neg hsid0]
    refine ⟨by trivial, ?_, ?_, ?_⟩
    · simp [hsame]
    · simp
    · simp only [List.any_append, List.any_cons, List.any_nil, any_ite,
        Action.isPlaylistComplete, Bool.or_false, Bool.false_or]
      rw [ite_self]
  · intro hlt
    rw [if_neg (by rw [hthr]; exact not_le.mpr hlt)]
    exact ⟨rfl, rfl⟩

/-- Concrete database and state for the C5 witness: final track `"d"` of a
4-track playlist of 300 s tracks, 200 s already accumulated. -/
def c5DemoDB : VaultDB :=
  { playlists := [(1, ["a", "b", "c", "d"])]
    runtime := fun _ => 300
    jf_playlist := fun _ => some "jf1"
    upsert_sid := 7
    total_runtime := fun _ => 1200 }

def c5DemoState : SessionState :=
  { session_id := some 5
    user_playlist_id := 1
    jf_playlist_id := some "jf1"
    current_index := 3
    is_confirmed := true
    current_item_id := "d"
    seconds_accum := 200
    playlist_length := some 4
    playlist_total_runtime := 1200
    second_expected := none
    jellyfin_user_id := "jfu"
    track_started_at := some 0 }

/-- Witness for C5: a 70 s increment reaches 270 s = 90% of 300 s. -/
theorem c5_completion_threshold_witness :
    (c5DemoState.is_confirmed = true ∧ c5DemoState.current_item_id = "d" ∧
      ("d" : String) ∈ all_playlist_items c5DemoDB c5DemoState.user_playlist_id ∧
      c5DemoState.playlist_length = some 4 ∧ (4 : ℕ) ≠ 0 ∧
      4 - 1 ≤ c5DemoState.current_index ∧
      c5DemoState.session_id = some 5 ∧ (5 : ℕ) ≠ 0) ∧
    ((get_track_runtime c5DemoDB "d" * (90 / 100) ≤ c5DemoState.seconds_accum + (70 : ℕ) →
      (process_increment c5DemoDB "d1" "jfu" "d" 70 100 (some c5DemoState)).1 = none ∧
      Action.recordFileCompletion 5 "d" c5DemoState.current_index (get_track_runtime c5DemoDB "d")
        ∈ (process_increment c5DemoDB "d1" "jfu" "d" 70 100 (some c5DemoState)).2 ∧
      Action.markSessionComplete 5
        ∈ (process_increment c5DemoDB "d1" "jfu" "d" 70 100 (some c5DemoState)).2 ∧
      ((process_increment c5DemoDB "d1" "jfu" "d" 70 100 (some c5DemoState)).2.any
        Action.isPlaylistComplete) = true) ∧
    (c5DemoState.seconds_accum + (70 : ℕ) < get_track_runtime c5DemoDB "d" * (90 / 100) →
      (process_increment c5DemoDB "d1" "jfu" "d" 70 100 (some c5DemoState)).1
        = some { c5DemoState with seconds_accum := c5DemoState.seconds_accum + (70 : ℕ) } ∧
      (process_increment c5DemoDB "d1" "jfu" "d" 70 100 (some c5DemoState)).2 = [])) :=
  ⟨⟨by decide, by decide, by decide, by decide, by decide, by decide, by decide, by decide⟩,
    c5_completion_threshold c5DemoDB c5DemoState "d1" "jfu" "d" 70 100 5 4
      (by decide) (by decide) (by decide) (by decide) (by decide) (by decide)
      (by decide) (by decide)⟩

theorem find?_pid_eq_of_nodup {l : List (ℕ × List String)} {p : ℕ × List String}
    (hp : p ∈ l) (hnd : (l.map Prod.fst).Nodup) :
    l.find? (fun q => q.1 = p.1) = some p := by
  induction l with
  | nil => cases hp
  | cons a t ih =>
    rw [List.map_cons, List.nodup_cons] at hnd
    rcases List.mem_cons.mp hp with heq | hp'
    · subst heq
      exact List.find?_cons_of_pos t (by simp)
    · have hne : a.1 ≠ p.1 := fun h => hnd.1 (h ▸ List.mem_map_of_mem Prod.fst hp')
      rw [List.find?_cons_of_neg t (by simpa using hne)]
      exact ih hp' hnd.2

/-- The candidate rows returned by `find_candidate_playlists_by_first_item`
really describe the first two tracks of their playlist. -/
theorem candidate_spec (db : VaultDB) (discord_id item_id : String) (c : Candidate)
    (hnd : (db.playlists.map Prod.fst).Nodup)
    (hc : c ∈ find_candidate_playlists_by_first_item db discord_id item_id) :
    (tracksOf db c.user_playlist_id).get? 0 = some item_id ∧
      (tracksOf db c.user_playlist_id).get? 1 = c.second := by
  simp only [find_candidate_playlists_by_first_item, List.mem_map] at hc
  obtain ⟨p, hpmem, hpc⟩ := hc
  rw [List.mem_filter] at hpmem
  obtain ⟨hpl, hfirst⟩ := hpmem
  have htracks : tracksOf db c.user_playlist_id = p.2 := by
    have : c.user_playlist_id = p.1 := by rw [← hpc]
    rw [this]
    simp [tracksOf, find?_pid_eq_of_nodup hpl hnd]
  rw [htracks]
  refine ⟨by simpa using hfirst, ?_⟩
  rw [← hpc]

theorem ensure_is_confirmed (db : VaultDB) (st : SessionState) :
    (ensure_playlist_length db st).is_confirmed = st.is_confirmed := by
  simp only [ensure_playlist_length]
  cases st.playlist_length with
  | none => rfl
  | some n =>
    simp only
    split <;> rfl

/-- An unconfirmed first-track session becomes confirmed by an increment
only when the newly observed item is the track at order index 1 of the
tracked playlist. -/
theorem unconfirmed_confirm_only_on_expected (db : VaultDB)
    (discord_id jellyfin_user_id item2 : String) (secs2 : ℕ) (now2 : ℚ)
    (st0 st2 : SessionState)
    (h0 : st0.is_confirmed = false) (hidx : st0.current_index = 0)
    (hres : (process_increment db discord_id jellyfin_user_id item2 secs2 now2 (some st0)).1
      = some st2)
    (hconf2 : st2.is_confirmed = true) :
    get_playlist_track_at_index db st0.user_playlist_id 1 = some item2 := by
  rw [process_increment, handle_existing_session] at hres
  rw [if_neg (by simp [h0])] at hres
  by_cases hsame : st0.current_item_id = item2
  · rw [if_pos hsame] at hres
    rw [handle_same_item_increment] at hres
    set st1 := ensure_playlist_length db { st0 with seconds_accum := st0.seconds_accum + secs2 }
      with hst1
    have hconf1 : st1.is_confirmed = false := by
      rw [hst1, ensure_is_confirmed]
      exact h0
    cases hpl : st1.playlist_length with
    | none =>
      simp only [hpl] at hres
      simp only [Option.some_inj] at hres
      rw [← hres] at hconf2
      rw [hconf1] at hconf2
      cases hconf2
    | some n =>
      simp only [hpl] at hres
      rw [if_neg (by simp [hconf1])] at hres
      simp only [Option.some_inj] at hres
      rw [← hres] at hconf2
      rw [hconf1] at hconf2
      cases hconf2
  · rw [if_neg hsame] at hres
    rw [handle_item_change, hidx] at hres
    cases hexp : get_playlist_track_at_index db st0.user_playlist_id 1 with
    | none =>
      rw [hexp] at hres
      rw [handle_non_sequential_jump] at hres
      rw [if_neg (by simp [h0, hidx])] at hres
      cases hres
    | some e =>
      rw [hexp] at hres
      dsimp only at hres
      by_cases hmatch : e ≠ "" ∧ e = item2
      · rw [hmatch.2]
      · rw [if_neg hmatch] at hres
        rw [handle_non_sequential_jump] at hres
        rw [if_neg (by simp [h0, hidx])] at hres
        cases hres

/-- C7: seeding by candidate count — zero candidate playlists leave the
user untracked; a unique candidate yields an immediately confirmed state
with a persisted session row; several candidates yield an unconfirmed
state carrying the expected second track, and such a state is confirmed
later only when the next observed track matches that second track. -/
theorem c7_seeding (db : VaultDB) (discord_id jellyfin_user_id item_id : String)
    (secs : ℕ) (now : ℚ)
    (hnd : (db.playlists.map Prod.fst).Nodup) :
    (find_candidate_playlists_by_first_item db discord_id item_id = [] →
      process_increment db discord_id jellyfin_user_id item_id secs now none = (none, [])) ∧
    (∀ c, find_candidate_playlists_by_first_item db discord_id item_id = [c] →
      ∃ st', (process_increment db discord_id jellyfin_user_id item_id secs now none).1
          = some st' ∧
        st'.is_confirmed = true ∧ st'.session_id = some db.upsert_sid ∧
        Action.upsertSession discord_id c.user_playlist_id 0 true
          ∈ (process_increment db discord_id jellyfin_user_id item_id secs now none).2) ∧
    (∀ c c2 rest, find_candidate_playlists_by_first_item db discord_id item_id
        = c :: c2 :: rest →
      ∃ st', (process_increment db discord_id jellyfin_user_id item_id secs now none).1
          = some st' ∧
        st'.is_confirmed = false ∧ st'.session_id = none ∧
        st'.second_expected = c.second ∧
        ((process_increment db discord_id jellyfin_user_id item_id secs now none).2.any
          Action.isUpsertSession) = false ∧
        (∀ (item2 : String) (secs2 : ℕ) (now2 : ℚ) (st2 : SessionState),
          (process_increment db discord_id jellyfin_user_id item2 secs2 now2 (some st')).1
            = some st2 →
          st2.is_confirmed = true → some item2 = c.second)) := by
  refine ⟨?_, ?_, ?_⟩
  · intro hcand
    simp [process_increment, handle_session_seed, hcand]
  · intro c hcand
    simp only [process_increment, handle_session_seed, hcand]
    simp only [List.length_cons, List.length_nil]
    rw [if_pos trivial]
    refine ⟨_, rfl, by simp, rfl, ?_⟩
    simp
  · intro c c2 rest hcand
    have hlen : (c :: c2 :: rest).length = 1 → False := by simp
    simp only [process_increment, handle_session_seed, hcand]
    rw [if_neg hlen]
    refine ⟨_, rfl, by simp [hlen], rfl, rfl, by simp [Action.isUpsertSession], ?_⟩
    intro item2 secs2 now2 st2 hres hconf2
    have hcmem : c ∈ find_candidate_playlists_by_first_item db discord_id item_id := by
      rw [hcand]; exact List.mem_cons_self c _
    have hspec := candidate_spec db discord_id item_id c hnd hcmem
    have := unconfirmed_confirm_only_on_expected db discord_id jellyfin_user_id item2 secs2 now2
      _ st2 (by simp [hlen]) rfl hres hconf2
    rw [get_playlist_track_at_index] at this
    simp only at this
    rw [← hspec.2, this]

/-- Concrete database for the C7 witness: two playlists share the first
track `"a"`. -/
def c7DemoDB : VaultDB :=
  { playlists := [(1, ["a", "b", "c"]), (2, ["a", "x", "y"])]
    runtime := fun _ => 300
    jf_playlist := fun _ => some "jf1"
    upsert_sid := 7
    total_runtime := fun _ => 900 }

/-- Witness for C7 at the concrete database. -/
theorem c7_seeding_witness :
    ((c7DemoDB.playlists.map Prod.fst).Nodup) ∧
    ((find_candidate_playlists_by_first_item c7DemoDB "d1" "a" = [] →
      process_increment c7DemoDB "d1" "jfu" "a" 5 0 none = (none, [])) ∧
    (∀ c, find_candidate_playlists_by_first_item c7DemoDB "d1" "a" = [c] →
      ∃ st', (process_increment c7DemoDB "d1" "jfu" "a" 5 0 none).1 = some st' ∧
        st'.is_confirmed = true ∧ st'.session_id = some c7DemoDB.upsert_sid ∧
        Action.upsertSession "d1" c.user_playlist_id 0 true
          ∈ (process_increment c7DemoDB "d1" "jfu" "a" 5 0 none).2) ∧
    (∀ c c2 rest, find_candidate_playlists_by_first_item c7DemoDB "d1" "a"
        = c :: c2 :: rest →
      ∃ st', (process_increment c7DemoDB "d1" "jfu" "a" 5 0 none).1 = some st' ∧
        st'.is_confirmed = false ∧ st'.session_id = none ∧
        st'.second_expected = c.second ∧
        ((process_increment c7DemoDB "d1" "jfu" "a" 5 0 none).2.any
          Action.isUpsertSession) = false ∧
        (∀ (item2 : String) (secs2 : ℕ) (now2 : ℚ) (st2 : SessionState),
          (process_increment c7DemoDB "d1" "jfu" item2 secs2 now2 (some st')).1 = some st2 →
          st2.is_confirmed = true → some item2 = c.second))) :=
  ⟨by decide, c7_seeding c7DemoDB "d1" "jfu" "a" 5 0 (by decide)⟩

/-- Concrete database and state for C2: confirmed session on track 0
(`"a"`) of playlist `["a","b","c","d"]`; the user is next observed on
`"c"` (order index 2, not the expected index 1). -/
def c2DemoDB : VaultDB :=
  { playlists := [(1, ["a", "b", "c", "d"])]
    runtime := fun _ => 300
    jf_playlist := fun _ => some "jf1"
    upsert_sid := 7
    total_runtime := fun _ => 1200 }

def c2DemoState : SessionState :=
  { session_id := some 5
    user_playlist_id := 1
    jf_playlist_id := some "jf1"
    current_index := 0
    is_confirmed := true
    current_item_id := "a"
    seconds_accum := 50
    playlist_length := some 4
    playlist_total_runtime := 1200
    second_expected := none
    jellyfin_user_id := "jfu"
    track_started_at := some 0 }

/-- C2 (evaluation at the failing input): a non-sequential jump within the
playlist moves the pointer to the resolved order index and applies the
30-second seeding guard to the credited time — but the event dispatched by
`_process_playlist_jump` is `emit_track_advance`
(`"playlist_track_advance"`), not the track-jump event, contradicting the
claim (and the function's own `"jumped within playlist"` logging).
5 s ≤ guard is credited; a 40 s initial position is credited as 0. -/
theorem c2_playlist_jump_dispatches_advance :
    (((process_increment c2DemoDB "d1" "jfu" "c" 5 100 (some c2DemoState)).1.map
        (fun s => s.current_index)) = some 2 ∧
      ((process_increment c2DemoDB "d1" "jfu" "c" 5 100 (some c2DemoState)).1.map
        (fun s => s.seconds_accum)) = some 5 ∧
      ((process_increment c2DemoDB "d1" "jfu" "c" 40 100 (some c2DemoState)).1.map
        (fun s => s.seconds_accum)) = some 0) ∧
    ((process_increment c2DemoDB "d1" "jfu" "c" 5 100 (some c2DemoState)).2.any
      Action.isTrackAdvance) = true ∧
    ((process_increment c2DemoDB "d1" "jfu" "c" 5 100 (some c2DemoState)).2.any
      Action.isTrackJump) = false := by
  decide

end Incr

end VaultBot
